import Mathlib

/-!
Shallow embedding of the directory synchronization / batch upload engine of
`server.py` (GitHub MCP server): the local tree scanner, the diff & plan logic
of the sync tool, the blob/tree/commit/ref commit pipeline, and the batch
operation tracker.  Gateway (GitHub REST) calls are modelled by a deterministic
oracle `Gateway` giving each request's outcome, and a `GWState` recording the
branch head and the trace of issued requests.  Timestamps are naturals
(`time.time()` values); base64 transport encoding is omitted (it is a bijection
on byte strings and no property depends on it), file contents are `String`s.
-/

set_option maxHeartbeats 1000000

namespace GhSync

/-! ### `should_exclude`: shell-glob matching (`fnmatch.fnmatch`, POSIX) -/

/-- Per `fnmatch.translate`: position of the `]` closing a bracket set, where a
`!` right after `[` and a `]` right after `[` or `[!` are part of the set. -/
def closeIdx (ps : List Char) : Option Nat :=
  let s1 : Nat := if ps.head? = some '!' then 1 else 0
  let s2 : Nat := if (ps.drop s1).head? = some ']' then s1 + 1 else s1
  match (ps.drop s2).findIdx? (· = ']') with
  | some j => some (s2 + j)
  | none => none

/-- Membership of a character in the body of a `[...]` set (ranges allowed). -/
def setContains : List Char → Char → Bool
  | a :: '-' :: b :: rest, c => (decide (a ≤ c) && decide (c ≤ b)) || setContains rest c
  | a :: rest, c => (a == c) || setContains rest c
  | [], _ => false

/-- A `[...]` set matches a character; a leading `!` complements the set. -/
def matchSet (body : List Char) (c : Char) : Bool :=
  match body with
  | '!' :: rest => !(setContains rest c)
  | _ => setContains body c

/-- Shell-glob matching of a whole name against a pattern (`*`, `?`, `[...]`;
an unterminated `[` is a literal, as in `fnmatch.translate`). -/
def globMatch : List Char → List Char → Bool
  | [], [] => true
  | [], _ :: _ => false
  | '*' :: ps, [] => globMatch ps []
  | '*' :: ps, c :: cs => globMatch ps (c :: cs) || globMatch ('*' :: ps) cs
  | '?' :: _, [] => false
  | '?' :: ps, _ :: cs => globMatch ps cs
  | '[' :: ps, cs =>
    match closeIdx ps with
    | none =>
      match cs with
      | [] => false
      | c :: cs' => ('[' == c) && globMatch ps cs'
    | some i =>
      match cs with
      | [] => false
      | c :: cs' => matchSet (ps.take i) c && globMatch (ps.drop (i + 1)) cs'
  | p :: ps, [] => (p == '*') && globMatch ps []
  | p :: ps, c :: cs => (p == c) && globMatch ps cs
termination_by p s => p.length + s.length
decreasing_by
  all_goals simp_arith [List.length_drop]

/-- `fnmatch.fnmatch(name, pattern)` on POSIX (`normcase` is the identity). -/
def fnmatchB (nm pat : String) : Bool := globMatch pat.data nm.data

/-- `should_exclude(filename, exclude_patterns)` from `server.py`. -/
def should_exclude (filename : String) (excludePatterns : List String) : Bool :=
  excludePatterns.any (fun pattern => fnmatchB filename pattern)

/-- Python's `filename.startswith('.')`: the first character is a dot. -/
def startsWithDot (s : String) : Bool :=
  match s.data with
  | [] => false
  | c :: _ => c == '.'

/-! ### Local filesystem model -/

/-- A local filesystem entry: a regular file (with byte size, contents, and
whether reads/stat succeed on it) or a directory with ordered children
(`os.walk` listing order). -/
inductive FSEntry where
  | file (name : String) (size : Nat) (content : String) (readable : Bool)
  | dir (name : String) (children : List FSEntry)
deriving Repr

/-- `os.path.join` for the forward-slash paths this model manipulates; also
matches the `os.path.join(repo_path, rel) if repo_path else rel` idiom since an
empty left component just yields the right one. -/
def joinPath (a b : String) : String := if a = "" then b else a ++ "/" ++ b

/-! ### `scan_local_directory` -/

/-- One entry of the `files` list built by `scan_local_directory`.  A
successful `os.stat` produces path / relative path / size; a stat failure
produces an error entry that carries only the path (here: empty relative path,
zero size, `error` set). -/
structure ScanFile where
  path : String
  relativePath : String
  size : Nat
  error : Option String
deriving Repr, DecidableEq

/-- Running accumulator of the `os.walk` loop of `scan_local_directory`. -/
structure ScanAcc where
  files : List ScanFile
  totalSize : Nat
  dirsScanned : Nat
deriving Repr, DecidableEq

/-- The inner `for filename in filenames` loop of `scan_local_directory`:
skip excluded and hidden names, `break` once `max_files` entries are
collected, append a file entry (or an error entry when stat fails). -/
def scanFilesLoop (dirPath relPath : String) (includeHidden : Bool)
    (pats : List String) (maxFiles : Nat) :
    List FSEntry → ScanAcc → ScanAcc
  | [], acc => acc
  | FSEntry.dir _ _ :: rest, acc =>
      scanFilesLoop dirPath relPath includeHidden pats maxFiles rest acc
  | FSEntry.file nm sz _ readable :: rest, acc =>
      if should_exclude nm pats then
        scanFilesLoop dirPath relPath includeHidden pats maxFiles rest acc
      else if !includeHidden && startsWithDot nm then
        scanFilesLoop dirPath relPath includeHidden pats maxFiles rest acc
      else if maxFiles ≤ acc.files.length then acc
      else
        let fp := joinPath dirPath nm
        if readable then
          scanFilesLoop dirPath relPath includeHidden pats maxFiles rest
            { acc with
              files := acc.files ++ [⟨fp, joinPath relPath nm, sz, none⟩],
              totalSize := acc.totalSize + sz }
        else
          scanFilesLoop dirPath relPath includeHidden pats maxFiles rest
            { acc with files := acc.files ++ [⟨fp, "", 0, some "stat failed"⟩] }

/-- The recursive part of the `os.walk` loop of `scan_local_directory`
(reached only when `recursive` is true): visit each non-excluded
subdirectory in order — count it, run its filename loop, descend — checking
the walk-level `break` after the filename loop of each visited directory. -/
def scanSubdirs (includeHidden : Bool) (pats : List String) (maxFiles : Nat)
    (dirPath relPath : String) :
    List FSEntry → ScanAcc → ScanAcc
  | [], acc => acc
  | FSEntry.file _ _ _ _ :: rest, acc =>
      scanSubdirs includeHidden pats maxFiles dirPath relPath rest acc
  | FSEntry.dir nm ch :: rest, acc =>
      if should_exclude nm pats then
        scanSubdirs includeHidden pats maxFiles dirPath relPath rest acc
      else
        let dp := joinPath dirPath nm
        let rp := joinPath relPath nm
        let acc1 := { acc with dirsScanned := acc.dirsScanned + 1 }
        let acc2 := scanFilesLoop dp rp includeHidden pats maxFiles ch acc1
        let acc3 :=
          if maxFiles ≤ acc2.files.length then acc2
          else scanSubdirs includeHidden pats maxFiles dp rp ch acc2
        if maxFiles ≤ acc3.files.length then acc3
        else scanSubdirs includeHidden pats maxFiles dirPath relPath rest acc3

/-- The result object of `scan_local_directory` (human-readable size strings
and per-entry metadata levels are display-only and omitted). -/
structure ScanResult where
  directory : String
  totalFiles : Nat
  totalSize : Nat
  dirsScanned : Nat
  recursive : Bool
  files : List ScanFile
  truncated : Bool
  maxFilesReached : Nat
deriving Repr, DecidableEq

/-- The `scan_local_directory` tool handler.  `fs` resolves a path argument to
the filesystem entry it names (`none` = path does not exist). -/
def scan_local_directory (fs : String → Option FSEntry) (path : String)
    (recursive includeHidden : Bool) (pats : List String) (maxFiles : Nat) :
    Except String ScanResult :=
  match fs path with
  | none => .error ("Error: Path " ++ path ++ " does not exist")
  | some (FSEntry.file _ _ _ _) => .error ("Error: " ++ path ++ " is not a directory")
  | some (FSEntry.dir _ children) =>
      let acc0 : ScanAcc := ⟨[], 0, 1⟩
      let acc1 := scanFilesLoop path "" includeHidden pats maxFiles children acc0
      let acc :=
        if maxFiles ≤ acc1.files.length then acc1
        else if recursive then
          scanSubdirs includeHidden pats maxFiles path "" children acc1
        else acc1
      .ok { directory := path
            totalFiles := acc.files.length
            totalSize := acc.totalSize
            dirsScanned := acc.dirsScanned
            recursive := recursive
            files := acc.files.take maxFiles
            truncated := decide (maxFiles < acc.files.length)
            maxFilesReached := maxFiles }

/-! ### `BatchOperationManager` -/

/-- The per-operation record kept in `BatchOperationManager.operations`. -/
structure Operation where
  opType : String
  details : List (String × String)
  status : String
  progress : Nat
  total : Nat
  completed : Nat
  failed : Nat
  errors : List String
  createdAt : Nat
  updatedAt : Nat
deriving Repr, DecidableEq

/-- The fresh record built by `create_operation`. -/
def mkOperation (opType : String) (details : List (String × String)) (now : Nat) :
    Operation :=
  { opType := opType, details := details, status := "pending", progress := 0,
    total := 0, completed := 0, failed := 0, errors := [],
    createdAt := now, updatedAt := now }

/-- The tracker: an insertion-ordered string-keyed map (Python `dict`)
plus the retention constants. -/
structure BatchOperationManager where
  operations : List (String × Operation)
  maxOperations : Nat
  operationTimeout : Nat
deriving Repr, DecidableEq

/-- A fresh manager (`max_operations = 50`, `operation_timeout = 7200`). -/
def emptyManager : BatchOperationManager := ⟨[], 50, 7200⟩

/-- Python `dict` assignment: overwrite in place when the key exists
(keeping its position), otherwise append. -/
def dictInsert (ops : List (String × Operation)) (k : String) (v : Operation) :
    List (String × Operation) :=
  if ops.any (fun kv => kv.1 == k) then
    ops.map (fun kv => if kv.1 == k then (k, v) else kv)
  else ops ++ [(k, v)]

/-- `_cleanup_expired`: drop operations older than the TTL, then, if still over
the cap, drop the oldest-by-`created_at` beyond the cap (Python `sorted` is a
stable ascending sort, as is `List.mergeSort`). -/
def cleanup_expired (m : BatchOperationManager) (now : Nat) : BatchOperationManager :=
  let ops := m.operations.filter
    (fun kv => !decide (m.operationTimeout < now - kv.2.createdAt))
  if m.maxOperations < ops.length then
    let oldest := (ops.mergeSort
        (fun a b => decide (a.2.createdAt ≤ b.2.createdAt))).take
      (ops.length - m.maxOperations)
    { m with operations :=
        ops.filter (fun kv => !(oldest.any (fun o => o.1 == kv.1))) }
  else { m with operations := ops }

/-- `create_operation` (the fresh id from `uuid4` and the `time.time()` value
are inputs of the model): insert the new record, then run the cleanup. -/
def create_operation (m : BatchOperationManager) (opId : String) (now : Nat)
    (opType : String) (details : List (String × String)) : BatchOperationManager :=
  cleanup_expired
    { m with operations := dictInsert m.operations opId (mkOperation opType details now) }
    now

/-- The record transformation applied by `update_operation` to the operation
it addresses. -/
def applyUpdate (op : Operation) (now : Nat) (progressArg : Option Nat)
    (statusArg : Option String) (errorArg : Option String) : Operation :=
  let op1 := match progressArg with
    | some p => { op with progress := p }
    | none => op
  let op2 := match statusArg with
    | some s => { op1 with status := s }
    | none => op1
  let op3 := match errorArg with
    | some e => { op2 with errors := op2.errors ++ [e], failed := op2.failed + 1 }
    | none => op2
  { op3 with updatedAt := now }

/-- `update_operation`: a no-op when the id is untracked. -/
def update_operation (m : BatchOperationManager) (opId : String) (now : Nat)
    (progressArg : Option Nat) (statusArg : Option String)
    (errorArg : Option String) : BatchOperationManager :=
  { m with operations := m.operations.map (fun kv =>
      if kv.1 == opId then (kv.1, applyUpdate kv.2 now progressArg statusArg errorArg)
      else kv) }

/-- `complete_operation`. -/
def complete_operation (m : BatchOperationManager) (opId : String) (now : Nat)
    (status : String) : BatchOperationManager :=
  { m with operations := m.operations.map (fun kv =>
      if kv.1 == opId then (kv.1, { kv.2 with status := status, updatedAt := now })
      else kv) }

/-- `get_operation`. -/
def get_operation (m : BatchOperationManager) (opId : String) : Option Operation :=
  (m.operations.find? (fun kv => kv.1 == opId)).map Prod.snd

/-- `cancel_operation`: returns whether the id was known, with the new state. -/
def cancel_operation (m : BatchOperationManager) (opId : String) (now : Nat) :
    Bool × BatchOperationManager :=
  if m.operations.any (fun kv => kv.1 == opId) then
    (true, { m with operations := m.operations.map (fun kv =>
        if kv.1 == opId then (kv.1, { kv.2 with status := "cancelled", updatedAt := now })
        else kv) })
  else (false, m)

/-! ### Gateway model -/

/-- A flat entry of the tree-creation request body. -/
structure TreeItem where
  path : String
  mode : String
  sha : String
deriving Repr, DecidableEq

/-- An entry of the recursive remote tree (`GET git/trees?recursive=1`). -/
structure RemoteEntry where
  path : String
  entryType : String
  sha : String
deriving Repr, DecidableEq

/-- A Gateway request issued by the pipelines, with its mutating payload. -/
inductive GWCall where
  | getRef (branch : String)
  | getCommitObj (sha : String)
  | getTree (sha : String)
  | createBlob (content : String)
  | createTree (baseTree : String) (items : List TreeItem)
  | createCommit (message : String) (tree : String) (parents : List String)
  | patchRef (branch : String) (sha : String)
deriving Repr, DecidableEq

/-- Externally visible remote state: the branch head plus the ordered trace of
issued Gateway requests. -/
structure GWState where
  branchHead : String
  trace : List GWCall
deriving Repr, DecidableEq

/-- Deterministic oracle fixing the outcome of each Gateway request of one
invocation.  `refError`/`refPatchError` are `none` on success (`GET git/ref`
returns the current branch head; `PATCH git/refs` applies the new sha);
blob creations are numbered in issue order. -/
structure Gateway where
  refError : Option String
  commitObjResult : Except String String
  treeFetch : Except String (List RemoteEntry)
  blobResult : Nat → Except String String
  treeResult : Except String String
  commitResult : Except String String
  refPatchError : Option String

/-- Append an issued request to the trace. -/
def issue (st : GWState) (c : GWCall) : GWState :=
  { st with trace := st.trace ++ [c] }

/-- `Except.isOk` as a plain `Bool` test. -/
def isOkE {α : Type} (r : Except String α) : Bool :=
  match r with
  | .ok _ => true
  | .error _ => false

/-- `Except.isError` as a plain `Bool` test. -/
def isErrE {α : Type} (r : Except String α) : Bool :=
  match r with
  | .ok _ => false
  | .error _ => true

/-! ### Upload walks (the inline `os.walk` loops of the upload/sync tools) -/

/-- One file collected by the upload walk: local path, target repo path,
contents (sent base64-encoded). -/
structure UploadFile where
  path : String
  repoPath : String
  content : String
deriving Repr, DecidableEq

/-- Files of the current directory for the upload walk: skip excluded and
hidden names; a read failure is logged and the file skipped. -/
def uploadFilesLoop (pats : List String) (includeHidden : Bool)
    (dirPath relPath repoPath : String) :
    List FSEntry → List UploadFile → List UploadFile
  | [], acc => acc
  | FSEntry.dir _ _ :: rest, acc =>
      uploadFilesLoop pats includeHidden dirPath relPath repoPath rest acc
  | FSEntry.file nm _ content readable :: rest, acc =>
      if should_exclude nm pats then
        uploadFilesLoop pats includeHidden dirPath relPath repoPath rest acc
      else if !includeHidden && startsWithDot nm then
        uploadFilesLoop pats includeHidden dirPath relPath repoPath rest acc
      else if readable then
        uploadFilesLoop pats includeHidden dirPath relPath repoPath rest
          (acc ++ [⟨joinPath dirPath nm, joinPath repoPath (joinPath relPath nm), content⟩])
      else
        uploadFilesLoop pats includeHidden dirPath relPath repoPath rest acc

/-- The recursive part of the upload tools' `os.walk` loop: visit each
non-excluded subdirectory in order — its files first, then its own
subdirectories (no file cap, always recursive). -/
def uploadSubdirs (pats : List String) (includeHidden : Bool)
    (repoPath : String) (dirPath relPath : String) :
    List FSEntry → List UploadFile → List UploadFile
  | [], acc => acc
  | FSEntry.file _ _ _ _ :: rest, acc =>
      uploadSubdirs pats includeHidden repoPath dirPath relPath rest acc
  | FSEntry.dir nm ch :: rest, acc =>
      if should_exclude nm pats then
        uploadSubdirs pats includeHidden repoPath dirPath relPath rest acc
      else
        let dp := joinPath dirPath nm
        let rp := joinPath relPath nm
        let acc1 := uploadFilesLoop pats includeHidden dp rp repoPath ch acc
        let acc2 := uploadSubdirs pats includeHidden repoPath dp rp ch acc1
        uploadSubdirs pats includeHidden repoPath dirPath relPath rest acc2

/-- The whole upload walk from the root the tool was pointed at (walking a
path that names a regular file yields nothing, as `os.walk` does). -/
def uploadWalk (pats : List String) (includeHidden : Bool)
    (localPath repoPath : String) (root : FSEntry) : List UploadFile :=
  match root with
  | FSEntry.file _ _ _ _ => []
  | FSEntry.dir _ children =>
      let acc1 := uploadFilesLoop pats includeHidden localPath "" repoPath children []
      uploadSubdirs pats includeHidden repoPath localPath "" children acc1

/-! ### The blob/tree/commit/ref pipeline of the upload tools -/

/-- The `for i, file_info in enumerate(files)` blob-creation loop of the
upload tools: report progress, create one blob per file, collect tree items;
the first Gateway failure aborts. -/
def uploadBlobLoop (gw : Gateway) (opId : String) (now : Nat) :
    List UploadFile → Nat → GWState → BatchOperationManager → List TreeItem →
    GWState × BatchOperationManager × Except String (List TreeItem)
  | [], _, st, m, acc => (st, m, .ok acc)
  | f :: rest, i, st, m, acc =>
      let m1 := update_operation m opId now (some i) (some "uploading") none
      let st1 := issue st (GWCall.createBlob f.content)
      match gw.blobResult i with
      | .error e => (st1, m1, .error e)
      | .ok bsha =>
          uploadBlobLoop gw opId now rest (i + 1) st1 m1
            (acc ++ [⟨f.repoPath, "100644", bsha⟩])

/-- The `try:` block shared by `upload_directory_to_github` (where supplying
both author fields hits the `commit["author"]` assignment to the undefined
name `commit`, raising `NameError` inside the `try`) and
`upload_multiple_directories_to_github` (no author branch: `authorProvided`
is `false` there).  On success the branch head moves to the new commit. -/
def uploadPipeline (gw : Gateway) (st : GWState) (m : BatchOperationManager)
    (opId : String) (now : Nat) (branch : String) (files : List UploadFile)
    (commitMessage : String) (authorProvided : Bool) :
    GWState × BatchOperationManager × Except String String :=
  let st1 := issue st (GWCall.getRef branch)
  match gw.refError with
  | some e => (st1, m, .error e)
  | none =>
    let latestSha := st1.branchHead
    let st2 := issue st1 (GWCall.getCommitObj latestSha)
    match gw.commitObjResult with
    | .error e => (st2, m, .error e)
    | .ok baseTreeSha =>
      match uploadBlobLoop gw opId now files 0 st2 m [] with
      | (st3, m3, .error e) => (st3, m3, .error e)
      | (st3, m3, .ok treeItems) =>
        let m4 := update_operation m3 opId now (some files.length) (some "creating_tree") none
        let st4 := issue st3 (GWCall.createTree baseTreeSha treeItems)
        match gw.treeResult with
        | .error e => (st4, m4, .error e)
        | .ok newTreeSha =>
          if authorProvided then
            (st4, m4, .error "NameError: name commit is not defined")
          else
            let st5 := issue st4 (GWCall.createCommit commitMessage newTreeSha [latestSha])
            match gw.commitResult with
            | .error e => (st5, m4, .error e)
            | .ok newCommitSha =>
              let st6 := issue st5 (GWCall.patchRef branch newCommitSha)
              match gw.refPatchError with
              | some e => (st6, m4, .error e)
              | none =>
                ({ st6 with branchHead := newCommitSha }, m4, .ok newCommitSha)

/-! ### Tool arguments and results -/

/-- Arguments of `upload_directory_to_github` relevant to the engine
(`authorProvided` is `author_name and author_email` both given;
`force_overwrite` is accepted but never read by the handler). -/
structure UploadArgs where
  localPath : String
  owner : String
  repo : String
  repoPath : String
  branch : String
  commitMessage : String
  authorProvided : Bool
  excludePatterns : List String
  includeHidden : Bool
  dryRun : Bool

/-- One `directory_mappings` element of the multi-directory upload tool. -/
structure DirMapping where
  localPath : String
  repoPath : String
deriving Repr, DecidableEq

/-- One `sync_mappings` element of the multi-directory sync tool. -/
structure SyncMapping where
  localPath : String
  repoPath : String
  deleteRemoteFiles : Bool
deriving Repr, DecidableEq

/-- One per-mapping entry of the multi-directory sync result. -/
structure MappingResult where
  localPath : String
  repoPath : String
  success : Bool
  message : String
deriving Repr, DecidableEq

/-- The JSON payloads the sync/upload handlers can answer with. -/
inductive ToolResult where
  | errorText (msg : String)
  | dryRunUploadDir (directory targetRepo targetPath : String) (totalFiles : Nat)
  | uploadDirCompleted (operationId : String) (filesUploaded : Nat)
      (commitSha commitMessage repository branch : String)
  | dryRunUploadMulti (totalDirectories totalFiles : Nat) (targetRepo : String)
  | uploadMultiCompleted (operationId : String) (directoriesProcessed filesUploaded : Nat)
      (commitSha commitMessage repository branch : String)
  | dryRunSync (localDirectory targetRepo : String) (localFilesCount : Nat)
  | syncCompleted (operationId : String) (filesAdded filesUpdated : Nat)
      (filesDeleted : Option Nat) (commitSha repository branch : String)
  | dryRunSyncMulti (totalMappings : Nat) (targetRepo : String)
  | syncMultiCompleted (totalMappings successful failedCount : Nat)
      (results : List MappingResult)
deriving Repr, DecidableEq

/-! ### `upload_directory_to_github` -/

/-- The `upload_directory_to_github` handler.  `fs` resolves the local path,
`opId` is the id `uuid4` would produce, `now` the clock value. -/
def upload_directory_to_github (gw : Gateway) (fs : String → Option FSEntry)
    (a : UploadArgs) (opId : String) (now : Nat) (st : GWState)
    (m : BatchOperationManager) : GWState × BatchOperationManager × ToolResult :=
  match fs a.localPath with
  | none => (st, m, .errorText ("Error: Local path " ++ a.localPath ++ " does not exist"))
  | some root =>
    let files := uploadWalk a.excludePatterns a.includeHidden a.localPath a.repoPath root
    if a.dryRun then
      (st, m, .dryRunUploadDir a.localPath (a.owner ++ "/" ++ a.repo) a.repoPath files.length)
    else
      let m1 := create_operation m opId now "upload_directory"
        [("local_path", a.localPath), ("owner", a.owner), ("repo", a.repo),
         ("repo_path", a.repoPath), ("branch", a.branch)]
      match uploadPipeline gw st m1 opId now a.branch files a.commitMessage a.authorProvided with
      | (st2, m2, .error e) =>
          (st2, update_operation m2 opId now none (some "failed") (some e),
           .errorText ("Error uploading directory: " ++ e))
      | (st2, m2, .ok newCommitSha) =>
          (st2, complete_operation m2 opId now "completed",
           .uploadDirCompleted opId files.length newCommitSha a.commitMessage
             (a.owner ++ "/" ++ a.repo) a.branch)

/-! ### `upload_multiple_directories_to_github` -/

/-- The collection loop over `directory_mappings`: the first missing local
path aborts the whole call with an error result. -/
def collectMultiFiles (fs : String → Option FSEntry) (pats : List String)
    (includeHidden : Bool) : List DirMapping → Except String (List UploadFile)
  | [] => .ok []
  | mp :: rest =>
      match fs mp.localPath with
      | none => .error ("Error: Local path " ++ mp.localPath ++ " does not exist")
      | some root =>
          let here := uploadWalk pats includeHidden mp.localPath mp.repoPath root
          match collectMultiFiles fs pats includeHidden rest with
          | .error e => .error e
          | .ok more => .ok (here ++ more)

/-- The `upload_multiple_directories_to_github` handler. -/
def upload_multiple_directories_to_github (gw : Gateway)
    (fs : String → Option FSEntry) (mappings : List DirMapping)
    (owner repo branch commitMessage : String) (pats : List String)
    (includeHidden dryRun : Bool) (opId : String) (now : Nat) (st : GWState)
    (m : BatchOperationManager) : GWState × BatchOperationManager × ToolResult :=
  match collectMultiFiles fs pats includeHidden mappings with
  | .error e => (st, m, .errorText e)
  | .ok allFiles =>
    if dryRun then
      (st, m, .dryRunUploadMulti mappings.length allFiles.length (owner ++ "/" ++ repo))
    else
      let m1 := create_operation m opId now "upload_multiple"
        [("owner", owner), ("repo", repo), ("branch", branch)]
      match uploadPipeline gw st m1 opId now branch allFiles commitMessage false with
      | (st2, m2, .error e) =>
          (st2, update_operation m2 opId now none (some "failed") (some e),
           .errorText ("Error uploading directories: " ++ e))
      | (st2, m2, .ok newCommitSha) =>
          (st2, complete_operation m2 opId now "completed",
           .uploadMultiCompleted opId mappings.length allFiles.length newCommitSha
             commitMessage (owner ++ "/" ++ repo) branch)

/-! ### `sync_local_directory_with_github`: manifest, diff and pipeline -/

/-- The value of one `local_files[target_path]` entry (content, byte size,
`hashlib.sha256` hex digest of the content). -/
structure LocalFile where
  content : String
  size : Nat
  sha256 : String
deriving Repr, DecidableEq

/-- Python `dict` assignment on a string-keyed association list carrying any
value type. -/
def assocInsert {α : Type} (l : List (String × α)) (k : String) (v : α) :
    List (String × α) :=
  if l.any (fun kv => kv.1 == k) then
    l.map (fun kv => if kv.1 == k then (k, v) else kv)
  else l ++ [(k, v)]

/-- The filename loop of the sync tool's local scan, building
`local_files[target_path]`; unreadable files are logged and skipped.
`hash` stands for the `hashlib.sha256(...).hexdigest()` function. -/
def syncFilesLoop (hash : String → String) (pats : List String)
    (includeHidden : Bool) (relPath repoPath : String) :
    List FSEntry → List (String × LocalFile) → List (String × LocalFile)
  | [], acc => acc
  | FSEntry.dir _ _ :: rest, acc =>
      syncFilesLoop hash pats includeHidden relPath repoPath rest acc
  | FSEntry.file nm sz content readable :: rest, acc =>
      if should_exclude nm pats then
        syncFilesLoop hash pats includeHidden relPath repoPath rest acc
      else if !includeHidden && startsWithDot nm then
        syncFilesLoop hash pats includeHidden relPath repoPath rest acc
      else if readable then
        syncFilesLoop hash pats includeHidden relPath repoPath rest
          (assocInsert acc (joinPath repoPath (joinPath relPath nm))
            ⟨content, sz, hash content⟩)
      else
        syncFilesLoop hash pats includeHidden relPath repoPath rest acc

/-- The recursive part of the sync tool's local scan: visit each
non-excluded subdirectory in order — its files first, then its own
subdirectories. -/
def syncSubdirs (hash : String → String) (pats : List String)
    (includeHidden : Bool) (repoPath : String) (relPath : String) :
    List FSEntry → List (String × LocalFile) → List (String × LocalFile)
  | [], acc => acc
  | FSEntry.file _ _ _ _ :: rest, acc =>
      syncSubdirs hash pats includeHidden repoPath relPath rest acc
  | FSEntry.dir nm ch :: rest, acc =>
      if should_exclude nm pats then
        syncSubdirs hash pats includeHidden repoPath relPath rest acc
      else
        let rp := joinPath relPath nm
        let acc1 := syncFilesLoop hash pats includeHidden rp repoPath ch acc
        let acc2 := syncSubdirs hash pats includeHidden repoPath rp ch acc1
        syncSubdirs hash pats includeHidden repoPath relPath rest acc2

/-- The sync tool's local manifest from the root it was pointed at. -/
def syncWalk (hash : String → String) (pats : List String) (includeHidden : Bool)
    (repoPath : String) (root : FSEntry) : List (String × LocalFile) :=
  match root with
  | FSEntry.file _ _ _ _ => []
  | FSEntry.dir _ children =>
      let acc1 := syncFilesLoop hash pats includeHidden "" repoPath children []
      syncSubdirs hash pats includeHidden repoPath "" children acc1

/-- `remote_files`: the keys of the `{path: True}` dict built from the blob
entries of the recursive remote tree, in first-appearance order. -/
def remoteBlobPaths : List RemoteEntry → List String → List String
  | [], acc => acc
  | it :: rest, acc =>
      if it.entryType == "blob" && !(acc.any (fun p => p == it.path)) then
        remoteBlobPaths rest (acc ++ [it.path])
      else remoteBlobPaths rest acc

/-- The classification computed by the sync tool's diff loops. -/
structure SyncDiff where
  toAdd : List (String × LocalFile)
  toUpdate : List (String × LocalFile)
  toDelete : List String
deriving Repr, DecidableEq

/-- The diff loops of `sync_local_directory_with_github`: a local path absent
remotely is added; a local path present remotely is updated unconditionally
(the stored sha256 is never consulted); a remote path absent locally is
deleted only when `delete_remote_files` is set. -/
def computeSyncDiff (localFiles : List (String × LocalFile))
    (remotePaths : List String) (deleteRemoteFiles : Bool) : SyncDiff :=
  { toAdd := localFiles.filter (fun kv => !(remotePaths.any (fun p => p == kv.1))),
    toUpdate := localFiles.filter (fun kv => remotePaths.any (fun p => p == kv.1)),
    toDelete :=
      if deleteRemoteFiles then
        remotePaths.filter (fun p => !(localFiles.any (fun kv => kv.1 == p)))
      else [] }

/-- The remote paths carried forward unchanged into the new tree: every
`remote_files` key in none of the three diff sets. -/
def keptPaths (remotePaths : List String) (d : SyncDiff) : List String :=
  remotePaths.filter (fun p =>
    !(d.toAdd.any (fun kv => kv.1 == p)) &&
    !(d.toUpdate.any (fun kv => kv.1 == p)) &&
    !(d.toDelete.any (fun q => q == p)))

/-- The tree items for the kept paths: each takes the sha of the first
matching entry of the raw remote tree (mode forced to `100644`, as in the
source). -/
def keptItems (remotePaths : List String) (tree : List RemoteEntry)
    (d : SyncDiff) : List TreeItem :=
  (keptPaths remotePaths d).filterMap (fun p =>
    (tree.find? (fun it => it.path == p)).map (fun it => ⟨p, "100644", it.sha⟩))

/-- The blob-creation loops of the sync tool (no progress reporting there):
one blob per entry, numbered in issue order across both loops; returns the
next blob index alongside the collected items. -/
def syncBlobLoop (gw : Gateway) :
    List (String × LocalFile) → Nat → GWState → List TreeItem →
    GWState × Nat × Except String (List TreeItem)
  | [], i, st, acc => (st, i, .ok acc)
  | (p, f) :: rest, i, st, acc =>
      let st1 := issue st (GWCall.createBlob f.content)
      match gw.blobResult i with
      | .error e => (st1, i, .error e)
      | .ok bsha => syncBlobLoop gw rest (i + 1) st1 (acc ++ [⟨p, "100644", bsha⟩])

/-- The synthesized commit message (`"; ".join(parts)` or the no-change text). -/
def syncCommitMessage (nAdd nUpd nDel : Nat) (deleteRemoteFiles : Bool) : String :=
  let parts :=
    (if nAdd ≠ 0 then ["Add " ++ toString nAdd ++ " new files"] else []) ++
    (if nUpd ≠ 0 then ["Update " ++ toString nUpd ++ " files"] else []) ++
    (if nDel ≠ 0 && deleteRemoteFiles then ["Delete " ++ toString nDel ++ " files"] else [])
  if parts.isEmpty then "Sync: no changes" else String.intercalate "; " parts

/-- Success payload of the sync pipeline. -/
structure SyncOutcome where
  filesAdded : Nat
  filesUpdated : Nat
  filesDeleted : Nat
  commitSha : String
deriving Repr, DecidableEq

/-- The `try:` block of `sync_local_directory_with_github`: resolve the head,
fetch the recursive tree, classify, create blobs for adds and updates, carry
kept entries, create tree and commit, and finally move the branch ref. -/
def syncPipeline (gw : Gateway) (st : GWState) (m : BatchOperationManager)
    (opId : String) (now : Nat) (branch : String)
    (localFiles : List (String × LocalFile)) (deleteRemoteFiles : Bool) :
    GWState × BatchOperationManager × Except String SyncOutcome :=
  let st1 := issue st (GWCall.getRef branch)
  match gw.refError with
  | some e => (st1, m, .error e)
  | none =>
    let latestSha := st1.branchHead
    let st2 := issue st1 (GWCall.getCommitObj latestSha)
    match gw.commitObjResult with
    | .error e => (st2, m, .error e)
    | .ok baseTreeSha =>
      let st3 := issue st2 (GWCall.getTree latestSha)
      match gw.treeFetch with
      | .error e => (st3, m, .error e)
      | .ok tree =>
        let remotePaths := remoteBlobPaths tree []
        let d := computeSyncDiff localFiles remotePaths deleteRemoteFiles
        match syncBlobLoop gw d.toAdd 0 st3 [] with
        | (st4, _, .error e) => (st4, m, .error e)
        | (st4, i4, .ok addItems) =>
          match syncBlobLoop gw d.toUpdate i4 st4 addItems with
          | (st5, _, .error e) => (st5, m, .error e)
          | (st5, _, .ok updItems) =>
            let treeItems := updItems ++ keptItems remotePaths tree d
            let m5 := update_operation m opId now (some 50) (some "creating_tree") none
            let st6 := issue st5 (GWCall.createTree baseTreeSha treeItems)
            match gw.treeResult with
            | .error e => (st6, m5, .error e)
            | .ok newTreeSha =>
              let message := syncCommitMessage d.toAdd.length d.toUpdate.length
                d.toDelete.length deleteRemoteFiles
              let st7 := issue st6 (GWCall.createCommit message newTreeSha [latestSha])
              match gw.commitResult with
              | .error e => (st7, m5, .error e)
              | .ok newCommitSha =>
                let st8 := issue st7 (GWCall.patchRef branch newCommitSha)
                match gw.refPatchError with
                | some e => (st8, m5, .error e)
                | none =>
                  ({ st8 with branchHead := newCommitSha }, m5,
                   .ok ⟨d.toAdd.length, d.toUpdate.length, d.toDelete.length, newCommitSha⟩)

/-- Arguments of `sync_local_directory_with_github` relevant to the engine
(the three commit-message arguments and the author fields are accepted but
never used by the handler). -/
structure SyncArgs where
  localPath : String
  owner : String
  repo : String
  repoPath : String
  branch : String
  deleteRemoteFiles : Bool
  excludePatterns : List String
  includeHidden : Bool
  dryRun : Bool

/-- The `sync_local_directory_with_github` handler. -/
def sync_local_directory_with_github (gw : Gateway) (fs : String → Option FSEntry)
    (hash : String → String) (a : SyncArgs) (opId : String) (now : Nat)
    (st : GWState) (m : BatchOperationManager) :
    GWState × BatchOperationManager × ToolResult :=
  match fs a.localPath with
  | none => (st, m, .errorText ("Error: Local path " ++ a.localPath ++ " does not exist"))
  | some root =>
    let localFiles := syncWalk hash a.excludePatterns a.includeHidden a.repoPath root
    if a.dryRun then
      (st, m, .dryRunSync a.localPath (a.owner ++ "/" ++ a.repo) localFiles.length)
    else
      let m1 := create_operation m opId now "sync_directory"
        [("local_path", a.localPath), ("owner", a.owner), ("repo", a.repo),
         ("repo_path", a.repoPath), ("branch", a.branch)]
      match syncPipeline gw st m1 opId now a.branch localFiles a.deleteRemoteFiles with
      | (st2, m2, .error e) =>
          (st2, update_operation m2 opId now none (some "failed") (some e),
           .errorText ("Error synchronizing directory: " ++ e))
      | (st2, m2, .ok oc) =>
          (st2, complete_operation m2 opId now "completed",
           .syncCompleted opId oc.filesAdded oc.filesUpdated
             (if a.deleteRemoteFiles then some oc.filesDeleted else none)
             oc.commitSha (a.owner ++ "/" ++ a.repo) a.branch)

/-! ### `sync_multiple_directories_with_github` -/

/-- The `sync_multiple_directories_with_github` handler: after the dry-run
short-circuit it builds per-mapping `sync_args` it never uses and reports a
synthetic success for every mapping — no Gateway request, no tracker entry,
no call into the single-directory sync pipeline. -/
def sync_multiple_directories_with_github (mappings : List SyncMapping)
    (owner repo : String) (dryRun : Bool) (st : GWState)
    (m : BatchOperationManager) : GWState × BatchOperationManager × ToolResult :=
  if dryRun then
    (st, m, .dryRunSyncMulti mappings.length (owner ++ "/" ++ repo))
  else
    let results := mappings.map (fun mp =>
      ({ localPath := mp.localPath, repoPath := mp.repoPath, success := true,
         message := "Synced " ++ mp.localPath ++ " to " ++ mp.repoPath } : MappingResult))
    (st, m, .syncMultiCompleted mappings.length
      (results.filter (fun r => r.success)).length
      (results.filter (fun r => !r.success)).length results)

/-! ### `read_multiple_files` -/

/-- What a path argument of `read_multiple_files` resolves to. -/
inductive PathKind where
  | missing
  | notFile
  | file (size : Nat) (content : String) (readable : Bool)

/-- One entry of the `results` list of `read_multiple_files`. -/
structure ReadItem where
  path : String
  success : Bool
  size : Option Nat
  content : Option String
  error : Option String
deriving Repr, DecidableEq

/-- Accumulator of the `for filepath in paths` loop. -/
structure ReadAcc where
  results : List ReadItem
  totalSize : Nat
  successCount : Nat
  errorCount : Nat
deriving Repr, DecidableEq

/-- The `for filepath in paths` loop of `read_multiple_files`.  Note the
source's control flow: on missing-path and not-a-file errors the
`if not continue_on_error:` guard executes `continue` — the statement the
loop would run anyway — so those errors never abort the batch; only the
size-budget error and a read exception `break` when `continue_on_error` is
false. -/
def readFilesLoop (fs : String → PathKind) (maxTotalSize : Nat)
    (continueOnError : Bool) : List String → ReadAcc → ReadAcc
  | [], acc => acc
  | p :: rest, acc =>
      match fs p with
      | PathKind.missing =>
          readFilesLoop fs maxTotalSize continueOnError rest
            { acc with
              results := acc.results ++ [⟨p, false, none, none, some "File not found"⟩],
              errorCount := acc.errorCount + 1 }
      | PathKind.notFile =>
          readFilesLoop fs maxTotalSize continueOnError rest
            { acc with
              results := acc.results ++ [⟨p, false, none, none, some "Not a file"⟩],
              errorCount := acc.errorCount + 1 }
      | PathKind.file sz content readable =>
          if maxTotalSize < acc.totalSize + sz then
            let acc1 := { acc with
              results := acc.results ++ [⟨p, false, none, none,
                some ("Total size limit exceeded. Current: " ++ toString acc.totalSize ++
                  ", File: " ++ toString sz ++ ", Limit: " ++ toString maxTotalSize)⟩],
              errorCount := acc.errorCount + 1 }
            if !continueOnError then acc1
            else readFilesLoop fs maxTotalSize continueOnError rest acc1
          else if readable then
            readFilesLoop fs maxTotalSize continueOnError rest
              { acc with
                totalSize := acc.totalSize + sz,
                results := acc.results ++ [⟨p, true, some sz, some content, none⟩],
                successCount := acc.successCount + 1 }
          else
            let acc1 := { acc with
              totalSize := acc.totalSize + sz,
              results := acc.results ++ [⟨p, false, none, none, some "read failed"⟩],
              errorCount := acc.errorCount + 1 }
            if !continueOnError then acc1
            else readFilesLoop fs maxTotalSize continueOnError rest acc1

/-- The summary object of `read_multiple_files`. -/
structure ReadResult where
  totalFiles : Nat
  successCount : Nat
  errorCount : Nat
  totalSize : Nat
  results : List ReadItem
deriving Repr, DecidableEq

/-- The `read_multiple_files` handler. -/
def read_multiple_files (fs : String → PathKind) (paths : List String)
    (maxTotalSize : Nat) (continueOnError : Bool) : Except String ReadResult :=
  if paths.isEmpty then .error "Error: No file paths provided"
  else
    let acc := readFilesLoop fs maxTotalSize continueOnError paths ⟨[], 0, 0, 0⟩
    .ok { totalFiles := paths.length, successCount := acc.successCount,
          errorCount := acc.errorCount, totalSize := acc.totalSize,
          results := acc.results }

/-! ### Failure-shape predicates and tracker-state predicates -/

/-- Some Gateway step strictly before the branch-ref `PATCH` of the upload
pipeline fails (with both author fields supplied the commit step always
fails, on the undefined-name assignment). -/
def uploadPreRefFailure (gw : Gateway) (n : Nat) (authorProvided : Bool) : Prop :=
  gw.refError.isSome = true ∨ isErrE gw.commitObjResult = true ∨
  (∃ i, i < n ∧ isErrE (gw.blobResult i) = true) ∨ isErrE gw.treeResult = true ∨
  authorProvided = true ∨ isErrE gw.commitResult = true

/-- Some Gateway step strictly before the branch-ref `PATCH` of the sync
pipeline fails (`n` bounds the blob calls: one per local manifest entry). -/
def syncPreRefFailure (gw : Gateway) (n : Nat) : Prop :=
  gw.refError.isSome = true ∨ isErrE gw.commitObjResult = true ∨
  isErrE gw.treeFetch = true ∨
  (∃ i, i < n ∧ isErrE (gw.blobResult i) = true) ∨ isErrE gw.treeResult = true ∨
  isErrE gw.commitResult = true

/-- The tracker can absorb one fresh operation without evicting it: stock
constants, a fresh id, room under the cap, and no entry past the TTL. -/
def trackerRoom (m : BatchOperationManager) (opId : String) (now : Nat) : Prop :=
  m.maxOperations = 50 ∧ m.operationTimeout = 7200 ∧
  m.operations.length < 50 ∧
  m.operations.any (fun kv => kv.1 == opId) = false ∧
  ∀ kv ∈ m.operations, now - kv.2.createdAt ≤ 7200

/-- A sequence of consecutive `create_operation` calls, given as
`(operation id, creation time)` pairs in call order. -/
def createMany (m : BatchOperationManager) (opType : String)
    (details : List (String × String)) : List (String × Nat) → BatchOperationManager
  | [] => m
  | e :: rest => createMany (create_operation m e.1 e.2 opType details) opType details rest

/-! ### Concrete instances used to exercise the theorems -/

/-- A one-file local directory. -/
def wTree : FSEntry := FSEntry.dir "d" [FSEntry.file "a.txt" 2 "hi" true]

/-- A filesystem exposing `wTree` under the path `d`. -/
def wFs : String → Option FSEntry := fun p => if p == "d" then some wTree else none

/-- A stand-in content-hash function. -/
def wHash : String → String := fun s => s

/-- A Gateway oracle on which every request succeeds. -/
def wGatewayOk : Gateway :=
  { refError := none, commitObjResult := .ok "t0", treeFetch := .ok [],
    blobResult := fun _ => .ok "b0", treeResult := .ok "t1",
    commitResult := .ok "c1", refPatchError := none }

/-- The same oracle with a failing tree-creation request. -/
def wGatewayTreeFail : Gateway := { wGatewayOk with treeResult := .error "boom" }

/-- An initial remote state. -/
def wSt : GWState := { branchHead := "h0", trace := [] }

/-- Stock upload arguments against `wTree` (no author, not a dry run). -/
def wUploadArgs : UploadArgs :=
  { localPath := "d", owner := "o", repo := "r", repoPath := "", branch := "main",
    commitMessage := "msg", authorProvided := false, excludePatterns := [],
    includeHidden := false, dryRun := false }

/-- Fifty-one create calls with distinct ids and strictly increasing times. -/
def wEntries : List (String × Nat) :=
  (List.range 51).map (fun i => ("op" ++ toString i, i))

/-- Stock sync arguments against `wTree` (no deletions, not a dry run). -/
def wSyncArgs : SyncArgs :=
  { localPath := "d", owner := "o", repo := "r", repoPath := "", branch := "main",
    deleteRemoteFiles := false, excludePatterns := [], includeHidden := false,
    dryRun := false }

end GhSync

namespace GhSync

/-! ## Generic bridging lemmas -/

theorem any_beq_mem {l : List String} {p : String} :
    l.any (fun q => q == p) = true ↔ p ∈ l := by
  simp [List.any_eq_true]

theorem any_key_mem {α : Type} {l : List (String × α)} {p : String} :
    l.any (fun kv => kv.1 == p) = true ↔ p ∈ l.map Prod.fst := by
  simp [List.any_eq_true, List.mem_map]

theorem map_fst_filter_key {α : Type} (L : List (String × α)) (q : String → Bool) :
    (L.filter (fun kv => q kv.1)).map Prod.fst = (L.map Prod.fst).filter q := by
  induction L with
  | nil => rfl
  | cons kv rest ih =>
      by_cases h : q kv.1
      · simp [List.filter_cons, h, ih]
      · simp [List.filter_cons, h, ih]

theorem any_key_eq_any_map {α : Type} (L : List (String × α)) (p : String) :
    L.any (fun kv => kv.1 == p) = (L.map Prod.fst).any (fun q => q == p) := by
  induction L with
  | nil => rfl
  | cons kv rest ih => simp [List.any_cons, ih]

/-- Every path collected by `remote_files` names a blob entry of the tree. -/
theorem mem_remoteBlobPaths {tree : List RemoteEntry} {acc : List String} {p : String}
    (h : p ∈ remoteBlobPaths tree acc) :
    p ∈ acc ∨ ∃ it ∈ tree, it.entryType = "blob" ∧ it.path = p := by
  induction tree generalizing acc with
  | nil => exact Or.inl h
  | cons it rest ih =>
      rw [remoteBlobPaths] at h
      by_cases hb : (it.entryType == "blob" && !(acc.any (fun q => q == it.path))) = true
      · rw [if_pos hb] at h
        rcases ih h with hacc | ⟨jt, hjt, hty, hp⟩
        · rcases List.mem_append.mp hacc with h1 | h2
          · exact Or.inl h1
          · refine Or.inr ⟨it, List.mem_cons_self _ _, ?_, ?_⟩
            · exact beq_iff_eq.mp (Bool.and_eq_true_iff.mp hb).1
            · rcases List.mem_singleton.mp h2 with rfl
              rfl
        · exact Or.inr ⟨jt, List.mem_cons_of_mem _ hjt, hty, hp⟩
      · rw [if_neg hb] at h
        rcases ih h with hacc | ⟨jt, hjt, hty, hp⟩
        · exact Or.inl hacc
        · exact Or.inr ⟨jt, List.mem_cons_of_mem _ hjt, hty, hp⟩

/-- The kept tree items only carry paths from `keptPaths`. -/
theorem keptItems_path_mem {R : List String} {tree : List RemoteEntry}
    {d : SyncDiff} {q : String}
    (h : q ∈ (keptItems R tree d).map TreeItem.path) : q ∈ keptPaths R d := by
  rcases List.mem_map.mp h with ⟨item, hitem, rfl⟩
  rcases List.mem_filterMap.mp hitem with ⟨p, hp, hsome⟩
  rcases Option.map_eq_some'.mp hsome with ⟨it, _, heq⟩
  cases heq
  exact hp

/-- A `keptPaths` element coming from the remote tree is realized as a tree
item (the sha lookup over the raw tree succeeds). -/
theorem keptPaths_to_keptItems {tree : List RemoteEntry} {d : SyncDiff} {p : String}
    (hR : p ∈ remoteBlobPaths tree []) (hk : p ∈ keptPaths (remoteBlobPaths tree []) d) :
    p ∈ (keptItems (remoteBlobPaths tree []) tree d).map TreeItem.path := by
  rcases mem_remoteBlobPaths hR with h0 | ⟨it, hit, _, hp⟩
  · cases h0
  · have hfind : (tree.find? (fun jt => jt.path == p)).isSome = true := by
      rw [List.find?_isSome]
      exact ⟨it, hit, by simp [hp]⟩
    rcases Option.isSome_iff_exists.mp hfind with ⟨jt, hjt⟩
    refine List.mem_map.mpr ⟨⟨p, "100644", jt.sha⟩, ?_, rfl⟩
    exact List.mem_filterMap.mpr ⟨p, hk, by rw [hjt]; rfl⟩

/-! ## C2 -/

/-- C2: for every local manifest and remote tree, the sync diff with
`delete_remote_files = false` has an empty `to_delete`, and every path of the
remote tree or of the local manifest lands in `to_add`, `to_update`, or the
kept remote entries of the new tree. -/
theorem sync_diff_no_delete_covers (L : List (String × LocalFile))
    (tree : List RemoteEntry) :
    (computeSyncDiff L (remoteBlobPaths tree []) false).toDelete = [] ∧
    ∀ p : String,
      (p ∈ remoteBlobPaths tree [] ∨ p ∈ L.map Prod.fst) →
      (p ∈ (computeSyncDiff L (remoteBlobPaths tree []) false).toAdd.map Prod.fst ∨
       p ∈ (computeSyncDiff L (remoteBlobPaths tree []) false).toUpdate.map Prod.fst ∨
       p ∈ (keptItems (remoteBlobPaths tree [])
              tree (computeSyncDiff L (remoteBlobPaths tree []) false)).map TreeItem.path) := by
  constructor
  · simp [computeSyncDiff]
  · intro p hp
    by_cases hL : p ∈ L.map Prod.fst
    · rcases List.mem_map.mp hL with ⟨kv, hkv, rfl⟩
      by_cases hR : kv.1 ∈ remoteBlobPaths tree []
      · refine Or.inr (Or.inl ?_)
        refine List.mem_map.mpr ⟨kv, ?_, rfl⟩
        exact List.mem_filter.mpr ⟨hkv, any_beq_mem.mpr hR⟩
      · refine Or.inl ?_
        refine List.mem_map.mpr ⟨kv, ?_, rfl⟩
        refine List.mem_filter.mpr ⟨hkv, ?_⟩
        simp only [Bool.not_eq_true']
        exact (Bool.not_eq_true _).mp (fun hc => hR (any_beq_mem.mp hc))
    · have hR : p ∈ remoteBlobPaths tree [] := by
        rcases hp with h | h
        · exact h
        · exact absurd h hL
      refine Or.inr (Or.inr ?_)
      refine keptPaths_to_keptItems hR ?_
      refine List.mem_filter.mpr ⟨hR, ?_⟩
      have hAdd : (computeSyncDiff L (remoteBlobPaths tree []) false).toAdd.any
          (fun kv => kv.1 == p) = false := by
        rw [Bool.eq_false_iff]
        intro hc
        rcases any_key_mem.mp hc with hmem
        rcases List.mem_map.mp hmem with ⟨kv, hkv, rfl⟩
        exact hL (List.mem_map.mpr ⟨kv, List.mem_of_mem_filter hkv, rfl⟩)
      have hUpd : (computeSyncDiff L (remoteBlobPaths tree []) false).toUpdate.any
          (fun kv => kv.1 == p) = false := by
        rw [Bool.eq_false_iff]
        intro hc
        rcases any_key_mem.mp hc with hmem
        rcases List.mem_map.mp hmem with ⟨kv, hkv, rfl⟩
        exact hL (List.mem_map.mpr ⟨kv, List.mem_of_mem_filter hkv, rfl⟩)
      have hDel : (computeSyncDiff L (remoteBlobPaths tree []) false).toDelete.any
          (fun q => q == p) = false := by
        simp [computeSyncDiff]
      simp [hAdd, hUpd, hDel]

/-- C2 witness: a concrete two-file manifest against a one-blob remote tree. -/
theorem sync_diff_no_delete_covers_witness :
    (("keep.txt" ∈ remoteBlobPaths [⟨"keep.txt", "blob", "s1"⟩] [] ∨
      "keep.txt" ∈ ([("new.txt", ⟨"c", 1, "h"⟩)] :
        List (String × LocalFile)).map Prod.fst)) ∧
    (computeSyncDiff [("new.txt", ⟨"c", 1, "h"⟩)]
      (remoteBlobPaths [⟨"keep.txt", "blob", "s1"⟩] []) false).toDelete = [] ∧
    ("keep.txt" ∈ (computeSyncDiff [("new.txt", ⟨"c", 1, "h"⟩)]
        (remoteBlobPaths [⟨"keep.txt", "blob", "s1"⟩] []) false).toAdd.map Prod.fst ∨
     "keep.txt" ∈ (computeSyncDiff [("new.txt", ⟨"c", 1, "h"⟩)]
        (remoteBlobPaths [⟨"keep.txt", "blob", "s1"⟩] []) false).toUpdate.map Prod.fst ∨
     "keep.txt" ∈ (keptItems (remoteBlobPaths [⟨"keep.txt", "blob", "s1"⟩] [])
        [⟨"keep.txt", "blob", "s1"⟩]
        (computeSyncDiff [("new.txt", ⟨"c", 1, "h"⟩)]
          (remoteBlobPaths [⟨"keep.txt", "blob", "s1"⟩] []) false)).map TreeItem.path) := by
  refine ⟨by decide, (sync_diff_no_delete_covers _ _).1, ?_⟩
  exact (sync_diff_no_delete_covers [("new.txt", ⟨"c", 1, "h"⟩)]
    [⟨"keep.txt", "blob", "s1"⟩]).2 "keep.txt" (by decide)

/-! ## C3 -/

/-- C3: with `delete_remote_files = true`, every remote path absent from the
local manifest is put in `to_delete` and in no other set: not added, not
updated, and not carried into the kept remote entries of the new tree. -/
theorem sync_diff_delete_exclusive (L : List (String × LocalFile))
    (tree : List RemoteEntry) (p : String)
    (hR : p ∈ remoteBlobPaths tree []) (hL : p ∉ L.map Prod.fst) :
    p ∈ (computeSyncDiff L (remoteBlobPaths tree []) true).toDelete ∧
    p ∉ (computeSyncDiff L (remoteBlobPaths tree []) true).toAdd.map Prod.fst ∧
    p ∉ (computeSyncDiff L (remoteBlobPaths tree []) true).toUpdate.map Prod.fst ∧
    p ∉ (keptItems (remoteBlobPaths tree []) tree
          (computeSyncDiff L (remoteBlobPaths tree []) true)).map TreeItem.path := by
  have hdel : p ∈ (computeSyncDiff L (remoteBlobPaths tree []) true).toDelete := by
    show p ∈ (remoteBlobPaths tree []).filter
      (fun q => !(L.any (fun kv => kv.1 == q)))
    refine List.mem_filter.mpr ⟨hR, ?_⟩
    rw [Bool.not_eq_true']
    rw [Bool.eq_false_iff]
    intro hc
    exact hL (any_key_mem.mp hc)
  refine ⟨hdel, ?_, ?_, ?_⟩
  · intro hc
    rcases List.mem_map.mp hc with ⟨kv, hkv, rfl⟩
    exact hL (List.mem_map.mpr ⟨kv, List.mem_of_mem_filter hkv, rfl⟩)
  · intro hc
    rcases List.mem_map.mp hc with ⟨kv, hkv, rfl⟩
    exact hL (List.mem_map.mpr ⟨kv, List.mem_of_mem_filter hkv, rfl⟩)
  · intro hc
    have hk := keptItems_path_mem hc
    have h2 := (List.mem_filter.mp hk).2
    have hmem : ((computeSyncDiff L (remoteBlobPaths tree []) true).toDelete.any
        (fun q => q == p)) = true := any_beq_mem.mpr hdel
    simp [hmem] at h2

/-- C3 witness: a remote-only path against a one-file local manifest with
deletions enabled. -/
theorem sync_diff_delete_exclusive_witness :
    ("gone.txt" ∈ remoteBlobPaths [⟨"gone.txt", "blob", "s1"⟩] [] ∧
     "gone.txt" ∉ ([("new.txt", ⟨"c", 1, "h"⟩)] :
        List (String × LocalFile)).map Prod.fst) ∧
    "gone.txt" ∈ (computeSyncDiff [("new.txt", ⟨"c", 1, "h"⟩)]
      (remoteBlobPaths [⟨"gone.txt", "blob", "s1"⟩] []) true).toDelete := by
  refine ⟨⟨by decide, by decide⟩, ?_⟩
  exact (sync_diff_delete_exclusive [("new.txt", ⟨"c", 1, "h"⟩)]
    [⟨"gone.txt", "blob", "s1"⟩] "gone.txt" (by decide) (by decide)).1

/-! ## C4 -/

/-- C4: every local path also present in the remote tree is classified
`to_update` unconditionally (and not `to_add`); moreover the classification
depends only on the path sets — the stored content hashes are never
consulted, so identical files are re-uploaded like any other overlap. -/
theorem sync_diff_overlap_always_update :
    (∀ (L : List (String × LocalFile)) (tree : List RemoteEntry) (del : Bool)
      (p : String),
      p ∈ L.map Prod.fst → p ∈ remoteBlobPaths tree [] →
      (p ∈ (computeSyncDiff L (remoteBlobPaths tree []) del).toUpdate.map Prod.fst ∧
       p ∉ (computeSyncDiff L (remoteBlobPaths tree []) del).toAdd.map Prod.fst)) ∧
    (∀ (L L' : List (String × LocalFile)) (R : List String) (del : Bool),
      L.map Prod.fst = L'.map Prod.fst →
      ((computeSyncDiff L R del).toUpdate.map Prod.fst =
        (computeSyncDiff L' R del).toUpdate.map Prod.fst ∧
       (computeSyncDiff L R del).toAdd.map Prod.fst =
        (computeSyncDiff L' R del).toAdd.map Prod.fst ∧
       (computeSyncDiff L R del).toDelete = (computeSyncDiff L' R del).toDelete)) := by
  constructor
  · intro L tree del p hL hR
    constructor
    · rcases List.mem_map.mp hL with ⟨kv, hkv, rfl⟩
      refine List.mem_map.mpr ⟨kv, ?_, rfl⟩
      exact List.mem_filter.mpr ⟨hkv, any_beq_mem.mpr hR⟩
    · intro hc
      rcases List.mem_map.mp hc with ⟨kv, hkv, rfl⟩
      have := (List.mem_filter.mp hkv).2
      rw [Bool.not_eq_true'] at this
      rw [Bool.eq_false_iff] at this
      exact this (any_beq_mem.mpr hR)
  · intro L L' R del h
    refine ⟨?_, ?_, ?_⟩
    · have h1 := map_fst_filter_key L (fun s => R.any (fun q => q == s))
      have h2 := map_fst_filter_key L' (fun s => R.any (fun q => q == s))
      calc (computeSyncDiff L R del).toUpdate.map Prod.fst
          = (L.map Prod.fst).filter (fun s => R.any (fun q => q == s)) := h1
        _ = (L'.map Prod.fst).filter (fun s => R.any (fun q => q == s)) := by rw [h]
        _ = (computeSyncDiff L' R del).toUpdate.map Prod.fst := h2.symm
    · have h1 := map_fst_filter_key L (fun s => !(R.any (fun q => q == s)))
      have h2 := map_fst_filter_key L' (fun s => !(R.any (fun q => q == s)))
      calc (computeSyncDiff L R del).toAdd.map Prod.fst
          = (L.map Prod.fst).filter (fun s => !(R.any (fun q => q == s))) := h1
        _ = (L'.map Prod.fst).filter (fun s => !(R.any (fun q => q == s))) := by rw [h]
        _ = (computeSyncDiff L' R del).toAdd.map Prod.fst := h2.symm
    · show (if del then R.filter (fun p => !(L.any (fun kv => kv.1 == p))) else []) =
        (if del then R.filter (fun p => !(L'.any (fun kv => kv.1 == p))) else [])
      cases del with
      | false => rfl
      | true =>
          simp only [if_pos]
          refine List.filter_congr ?_
          intro p _
          rw [any_key_eq_any_map L p, any_key_eq_any_map L' p, h]

/-- C4 witness: an overlapping path whose local and remote contents would
hash identically is still classified as an update. -/
theorem sync_diff_overlap_always_update_witness :
    ("same.txt" ∈ ([("same.txt", ⟨"c", 1, "h"⟩)] :
        List (String × LocalFile)).map Prod.fst ∧
     "same.txt" ∈ remoteBlobPaths [⟨"same.txt", "blob", "s1"⟩] []) ∧
    "same.txt" ∈ (computeSyncDiff [("same.txt", ⟨"c", 1, "h"⟩)]
      (remoteBlobPaths [⟨"same.txt", "blob", "s1"⟩] []) false).toUpdate.map Prod.fst := by
  refine ⟨⟨by decide, by decide⟩, ?_⟩
  exact (sync_diff_overlap_always_update.1 [("same.txt", ⟨"c", 1, "h"⟩)]
    [⟨"same.txt", "blob", "s1"⟩] false "same.txt" (by decide) (by decide)).1

/-! ## C5 -/

/-- C5 (evaluation at the failing input): scanning a directory of `N + 5 = 6`
eligible files with `max_files = N = 1` returns exactly one file entry, but
reports `truncated = false` — the flag is computed as
`len(files) > max_files` after the collection loop already capped `files` at
`max_files`, so it can never be set, contradicting the spec's
`truncated = true`. -/
theorem scan_truncated_flag_eval :
    (scan_local_directory
      (fun p => if p == "d" then
        some (FSEntry.dir "d"
          [FSEntry.file "f1.txt" 1 "x" true, FSEntry.file "f2.txt" 1 "x" true,
           FSEntry.file "f3.txt" 1 "x" true, FSEntry.file "f4.txt" 1 "x" true,
           FSEntry.file "f5.txt" 1 "x" true, FSEntry.file "f6.txt" 1 "x" true])
        else none)
      "d" true false [] 1).map (fun r => (r.files.length, r.truncated, r.totalFiles)) =
    Except.ok (1, false, 1) := by
  rfl

/-! ## C8 -/

/-- C8 (evaluation at the failing input): `read_multiple_files` with
`continue_on_error = false` whose first path is missing still reads the
second path — the missing-path branch runs `continue`, not `break` (its
`if not continue_on_error:` guard is a no-op), so the first local error does
not abort the batch, contradicting the spec's abort-on-error contract. -/
theorem read_files_missing_does_not_abort_eval :
    read_multiple_files
      (fun p => if p == "b.txt" then PathKind.file 2 "hi" true else PathKind.missing)
      ["missing.txt", "b.txt"] 50000000 false =
    Except.ok (⟨2, 1, 1, 2,
      [⟨"missing.txt", false, none, none, some "File not found"⟩,
       ⟨"b.txt", true, some 2, some "hi", none⟩]⟩ : ReadResult) := by
  rfl

/-! ## C9 -/

/-- C9: `sync_multiple_directories_with_github` with `dry_run = false` and a
non-empty mapping list touches neither the Gateway state nor the tracker and
reports a synthetic success for every mapping, whatever the mappings say. -/
theorem sync_multi_synthetic_success (mappings : List SyncMapping)
    (owner repo : String) (st : GWState) (m : BatchOperationManager)
    (_hne : mappings ≠ []) :
    sync_multiple_directories_with_github mappings owner repo false st m =
      (st, m, ToolResult.syncMultiCompleted mappings.length mappings.length 0
        (mappings.map (fun mp => ⟨mp.localPath, mp.repoPath, true,
          "Synced " ++ mp.localPath ++ " to " ++ mp.repoPath⟩))) := by
  unfold sync_multiple_directories_with_github
  have hall : ((mappings.map (fun mp => (⟨mp.localPath, mp.repoPath, true,
      "Synced " ++ mp.localPath ++ " to " ++ mp.repoPath⟩ :
        MappingResult))).filter (fun r => r.success)) =
      mappings.map (fun mp => (⟨mp.localPath, mp.repoPath, true,
        "Synced " ++ mp.localPath ++ " to " ++ mp.repoPath⟩ : MappingResult)) := by
    refine List.filter_eq_self.mpr ?_
    intro r hr
    rcases List.mem_map.mp hr with ⟨mp, _, rfl⟩
    rfl
  have hnone : ((mappings.map (fun mp => (⟨mp.localPath, mp.repoPath, true,
      "Synced " ++ mp.localPath ++ " to " ++ mp.repoPath⟩ :
        MappingResult))).filter (fun r => !r.success)) = [] := by
    refine List.filter_eq_nil_iff.mpr ?_
    intro r hr
    rcases List.mem_map.mp hr with ⟨mp, _, rfl⟩
    simp
  simp [hall, hnone]

/-- C9 witness: one concrete mapping (missing local path, deletions on). -/
theorem sync_multi_synthetic_success_witness :
    (([⟨"nowhere", "tgt", true⟩] : List SyncMapping) ≠ []) ∧
    sync_multiple_directories_with_github [⟨"nowhere", "tgt", true⟩] "o" "r" false
      wSt emptyManager =
      (wSt, emptyManager, ToolResult.syncMultiCompleted 1 1 0
        [⟨"nowhere", "tgt", true, "Synced nowhere to tgt"⟩]) := by
  constructor
  · decide
  · exact sync_multi_synthetic_success [⟨"nowhere", "tgt", true⟩] "o" "r" wSt
      emptyManager (by decide)

/-! ## C7 -/

/-- C7: with `dry_run = true` each upload/sync tool returns before any
Gateway request and before any tracker entry: the Gateway state (branch head
and request trace) and the operation map are returned unchanged, and the
result is only the computed plan — file counts and target repository — with
no operation id. -/
theorem dry_run_short_circuits :
    (∀ (gw : Gateway) (fs : String → Option FSEntry) (a : UploadArgs)
       (opId : String) (now : Nat) (st : GWState) (m : BatchOperationManager)
       (root : FSEntry),
       fs a.localPath = some root → a.dryRun = true →
       upload_directory_to_github gw fs a opId now st m =
         (st, m, ToolResult.dryRunUploadDir a.localPath (a.owner ++ "/" ++ a.repo)
           a.repoPath (uploadWalk a.excludePatterns a.includeHidden a.localPath
             a.repoPath root).length)) ∧
    (∀ (gw : Gateway) (fs : String → Option FSEntry) (mappings : List DirMapping)
       (owner repo branch commitMessage : String) (pats : List String)
       (includeHidden : Bool) (opId : String) (now : Nat) (st : GWState)
       (m : BatchOperationManager) (allFiles : List UploadFile),
       collectMultiFiles fs pats includeHidden mappings = .ok allFiles →
       upload_multiple_directories_to_github gw fs mappings owner repo branch
           commitMessage pats includeHidden true opId now st m =
         (st, m, ToolResult.dryRunUploadMulti mappings.length allFiles.length
           (owner ++ "/" ++ repo))) ∧
    (∀ (gw : Gateway) (fs : String → Option FSEntry) (hash : String → String)
       (a : SyncArgs) (opId : String) (now : Nat) (st : GWState)
       (m : BatchOperationManager) (root : FSEntry),
       fs a.localPath = some root → a.dryRun = true →
       sync_local_directory_with_github gw fs hash a opId now st m =
         (st, m, ToolResult.dryRunSync a.localPath (a.owner ++ "/" ++ a.repo)
           (syncWalk hash a.excludePatterns a.includeHidden a.repoPath root).length)) := by
  refine ⟨?_, ?_, ?_⟩
  · intro gw fs a opId now st m root hfs hdry
    unfold upload_directory_to_github
    rw [hfs]
    simp [hdry]
  · intro gw fs mappings owner repo branch commitMessage pats includeHidden opId
      now st m allFiles hcol
    unfold upload_multiple_directories_to_github
    rw [hcol]
    simp
  · intro gw fs hash a opId now st m root hfs hdry
    unfold sync_local_directory_with_github
    rw [hfs]
    simp [hdry]

/-- C7 witness: the three dry-run short-circuits at a one-file directory. -/
theorem dry_run_short_circuits_witness :
    (wFs "d" = some wTree ∧
     ({ wUploadArgs with dryRun := true } : UploadArgs).dryRun = true ∧
     collectMultiFiles wFs [] false [⟨"d", "tgt"⟩] =
       .ok (uploadWalk [] false "d" "tgt" wTree) ∧
     ({ wSyncArgs with dryRun := true } : SyncArgs).dryRun = true) ∧
    upload_directory_to_github wGatewayOk wFs { wUploadArgs with dryRun := true }
        "op1" 0 wSt emptyManager =
      (wSt, emptyManager, ToolResult.dryRunUploadDir "d" "o/r" ""
        (uploadWalk [] false "d" "" wTree).length) ∧
    upload_multiple_directories_to_github wGatewayOk wFs [⟨"d", "tgt"⟩] "o" "r"
        "main" "msg" [] false true "op1" 0 wSt emptyManager =
      (wSt, emptyManager, ToolResult.dryRunUploadMulti 1
        (uploadWalk [] false "d" "tgt" wTree).length "o/r") ∧
    sync_local_directory_with_github wGatewayOk wFs wHash
        { wSyncArgs with dryRun := true } "op1" 0 wSt emptyManager =
      (wSt, emptyManager, ToolResult.dryRunSync "d" "o/r"
        (syncWalk wHash [] false "" wTree).length) := by
  have hcol : collectMultiFiles wFs [] false [⟨"d", "tgt"⟩] =
      .ok (uploadWalk [] false "d" "tgt" wTree) := by
    show Except.ok (uploadWalk [] false "d" "tgt" wTree ++ []) = _
    rw [List.append_nil]
  refine ⟨⟨rfl, rfl, hcol, rfl⟩, ?_, ?_, ?_⟩
  · exact dry_run_short_circuits.1 wGatewayOk wFs { wUploadArgs with dryRun := true }
      "op1" 0 wSt emptyManager wTree rfl rfl
  · exact dry_run_short_circuits.2.1 wGatewayOk wFs [⟨"d", "tgt"⟩] "o" "r" "main"
      "msg" [] false "op1" 0 wSt emptyManager (uploadWalk [] false "d" "tgt" wTree) hcol
  · exact dry_run_short_circuits.2.2 wGatewayOk wFs wHash
      { wSyncArgs with dryRun := true } "op1" 0 wSt emptyManager wTree rfl rfl

/-! ## C6 -/

/-- When nothing is expired and the cap is not exceeded, the cleanup run by
`create_operation` removes nothing. -/
theorem cleanup_expired_noop (m : BatchOperationManager) (now : Nat)
    (h1 : ∀ kv ∈ m.operations, now - kv.2.createdAt ≤ m.operationTimeout)
    (h2 : m.operations.length ≤ m.maxOperations) :
    cleanup_expired m now = m := by
  have hf : m.operations.filter
      (fun kv => !decide (m.operationTimeout < now - kv.2.createdAt)) =
      m.operations := by
    refine List.filter_eq_self.mpr ?_
    intro kv hkv
    have := h1 kv hkv
    simp only [Bool.not_eq_true', decide_eq_false_iff_not]
    omega
  unfold cleanup_expired
  simp only [hf]
  rw [if_neg (by omega)]

/-- Creating an operation under a fresh id, in a tracker with room and no
expired entry, just appends the new record. -/
theorem create_operation_fresh (m : BatchOperationManager) (opId : String)
    (now : Nat) (ty : String) (dt : List (String × String))
    (hfresh : m.operations.any (fun kv => kv.1 == opId) = false)
    (hlen : m.operations.length < m.maxOperations)
    (httl : ∀ kv ∈ m.operations, now - kv.2.createdAt ≤ m.operationTimeout) :
    create_operation m opId now ty dt =
      { m with operations := m.operations ++ [(opId, mkOperation ty dt now)] } := by
  unfold create_operation dictInsert
  rw [hfresh]
  simp only [Bool.false_eq_true, if_false]
  apply cleanup_expired_noop
  · intro kv hkv
    rcases List.mem_append.mp hkv with h | h
    · exact httl kv h
    · rcases List.mem_singleton.mp h with rfl
      simp [mkOperation]
  · simp only [List.length_append, List.length_singleton]
    omega

/-- Splitting a call sequence. -/
theorem createMany_concat (ty : String) (dt : List (String × String))
    (L1 L2 : List (String × Nat)) (m : BatchOperationManager) :
    createMany m ty dt (L1 ++ L2) = createMany (createMany m ty dt L1) ty dt L2 := by
  induction L1 generalizing m with
  | nil => rfl
  | cons e rest ih => rw [List.cons_append, createMany, createMany, ih]

/-- A call sequence that keeps the tracker at or under the cap, with fresh
distinct ids and all times within the TTL of each other, appends one record
per call and evicts nothing. -/
theorem createMany_no_eviction (ty : String) (dt : List (String × String)) :
    ∀ (L : List (String × Nat)) (m : BatchOperationManager),
      m.maxOperations = 50 → m.operationTimeout = 7200 →
      m.operations.length + L.length ≤ 50 →
      (∀ e ∈ L, m.operations.any (fun kv => kv.1 == e.1) = false) →
      (L.map Prod.fst).Nodup →
      (∀ e ∈ L, ∀ kv ∈ m.operations, e.2 - kv.2.createdAt ≤ 7200) →
      (∀ e ∈ L, ∀ f ∈ L, e.2 - f.2 ≤ 7200) →
      createMany m ty dt L =
        { m with operations :=
            m.operations ++ L.map (fun e => (e.1, mkOperation ty dt e.2)) } := by
  intro L
  induction L with
  | nil =>
      intro m _ _ _ _ _ _ _
      rw [createMany, List.map_nil, List.append_nil]
  | cons e rest ih =>
      intro m hmax httlc hlen hfresh hnodup httl hpair
      have hstep : create_operation m e.1 e.2 ty dt =
          { m with operations := m.operations ++ [(e.1, mkOperation ty dt e.2)] } :=
        create_operation_fresh m e.1 e.2 ty dt (hfresh e (List.mem_cons_self _ _))
          (by simp only [List.length_cons] at hlen; omega)
          (by
            intro kv hkv
            rw [httlc]
            exact httl e (List.mem_cons_self _ _) kv hkv)
      have hrec := ih
        { m with operations := m.operations ++ [(e.1, mkOperation ty dt e.2)] }
        hmax httlc
        (by
          show (m.operations ++ [(e.1, mkOperation ty dt e.2)]).length + rest.length ≤ 50
          rw [List.length_append]
          simp only [List.length_cons] at hlen
          simp only [List.length_singleton]
          omega)
        (by
          intro f hf
          show (m.operations ++ [(e.1, mkOperation ty dt e.2)]).any
            (fun kv => kv.1 == f.1) = false
          rw [List.any_append]
          have h1 : m.operations.any (fun kv => kv.1 == f.1) = false :=
            hfresh f (List.mem_cons_of_mem _ hf)
          have h2 : (e.1 == f.1) = false := by
            rw [List.map_cons, List.nodup_cons] at hnodup
            rw [beq_eq_false_iff_ne]
            intro hc
            exact hnodup.1 (hc ▸ List.mem_map.mpr ⟨f, hf, rfl⟩)
          simp [h1, h2])
        (by
          rw [List.map_cons, List.nodup_cons] at hnodup
          exact hnodup.2)
        (by
          intro f hf kv hkv
          rcases List.mem_append.mp hkv with h | h
          · exact httl f (List.mem_cons_of_mem _ hf) kv h
          · rcases List.mem_singleton.mp h with rfl
            exact hpair f (List.mem_cons_of_mem _ hf) e (List.mem_cons_self _ _))
        (by
          intro f hf g hg
          exact hpair f (List.mem_cons_of_mem _ hf) g (List.mem_cons_of_mem _ hg))
      rw [createMany, hstep, hrec]
      simp only [List.map_cons, List.append_assoc, List.singleton_append]

/-- Removing a key absent from an association list is the identity. -/
theorem filter_key_not_mem {α : Type} (l : List (String × α)) (k : String)
    (h : k ∉ l.map Prod.fst) : l.filter (fun kv => !(k == kv.1)) = l := by
  refine List.filter_eq_self.mpr ?_
  intro kv hkv
  simp only [Bool.not_eq_true', beq_eq_false_iff_ne]
  intro hc
  exact h (hc ▸ List.mem_map.mpr ⟨kv, hkv, rfl⟩)

/-- When nothing is expired, a 51-entry map already sorted by creation time
with a head key appearing nowhere else has exactly its head evicted by the
cleanup. -/
theorem cleanup_evicts_head (h0 : String × Operation)
    (tail : List (String × Operation)) (now : Nat)
    (hkeep : ∀ kv ∈ h0 :: tail, now - kv.2.createdAt ≤ 7200)
    (hlen : (h0 :: tail).length = 51)
    (hsorted : List.Pairwise
      (fun a b : String × Operation => decide (a.2.createdAt ≤ b.2.createdAt) = true)
      (h0 :: tail))
    (hfresh : h0.1 ∉ tail.map Prod.fst) :
    cleanup_expired ⟨h0 :: tail, 50, 7200⟩ now = ⟨tail, 50, 7200⟩ := by
  unfold cleanup_expired
  dsimp only
  have hf : (h0 :: tail).filter
      (fun kv => !decide (7200 < now - kv.2.createdAt)) = h0 :: tail := by
    refine List.filter_eq_self.mpr ?_
    intro kv hkv
    have := hkeep kv hkv
    simp only [Bool.not_eq_true', decide_eq_false_iff_not]
    omega
  rw [hf, hlen]
  rw [if_pos (by omega)]
  rw [List.mergeSort_of_sorted hsorted]
  have htake : (h0 :: tail).take (51 - 50) = [h0] := rfl
  rw [htake]
  have hfilter : (h0 :: tail).filter
      (fun kv => !([h0].any (fun o => o.1 == kv.1))) = tail := by
    rw [List.filter_cons]
    have hhead : (!([h0].any (fun o => o.1 == h0.1))) = false := by simp
    rw [hhead]
    simp only [Bool.false_eq_true, if_false]
    refine List.filter_eq_self.mpr ?_
    intro kv hkv
    simp only [List.any_cons, List.any_nil, Bool.or_false, Bool.not_eq_true',
      beq_eq_false_iff_ne]
    intro hc
    exact hfresh (hc ▸ List.mem_map.mpr ⟨kv, hkv, rfl⟩)
  rw [hfilter]

/-- C6: fifty-one consecutive `create_operation` calls with distinct ids,
strictly increasing creation times, and all times within the 2-hour TTL of
each other leave exactly fifty tracked operations, the single evicted one
being the oldest-created (the first call). -/
theorem tracker_cap_evicts_oldest (entries : List (String × Nat))
    (hlen : entries.length = 51)
    (hnodup : (entries.map Prod.fst).Nodup)
    (hmono : entries.Pairwise (fun a b => a.2 < b.2))
    (httl : ∀ a ∈ entries, ∀ b ∈ entries, a.2 - b.2 ≤ 7200) :
    (createMany emptyManager "test_op" [] entries).operations.length = 50 ∧
    (createMany emptyManager "test_op" [] entries).operations.map Prod.fst =
      (entries.map Prod.fst).drop 1 := by
  rcases List.eq_nil_or_concat entries with rfl | ⟨init, last, rfl⟩
  · simp at hlen
  simp only [List.concat_eq_append] at hlen hnodup hmono httl ⊢
  have hinitlen : init.length = 50 := by
    simp only [List.length_append, List.length_singleton] at hlen
    omega
  have hinitnodup : (init.map Prod.fst).Nodup := by
    rw [List.map_append] at hnodup
    exact hnodup.of_append_left
  have hmid := createMany_no_eviction "test_op" [] init emptyManager rfl rfl
    (by simp [emptyManager, hinitlen])
    (by intro f _; rfl)
    hinitnodup
    (by intro f _ kv hkv; simp [emptyManager] at hkv)
    (by
      intro f hf g hg
      exact httl f (List.mem_append_left _ hf) g (List.mem_append_left _ hg))
  have hmid2 : createMany emptyManager "test_op" [] init =
      ⟨init.map (fun e => (e.1, mkOperation "test_op" [] e.2)), 50, 7200⟩ := by
    rw [hmid]
    rfl
  rw [createMany_concat, hmid2, createMany, createMany]
  have hfresh51 : ((init.map (fun e => (e.1, mkOperation "test_op" [] e.2))).any
      (fun kv => kv.1 == last.1)) = false := by
    rw [Bool.eq_false_iff]
    intro hc
    rcases List.any_eq_true.mp hc with ⟨kv, hkv, hbeq⟩
    rcases List.mem_map.mp hkv with ⟨f, hf, rfl⟩
    have hfe : f.1 = last.1 := beq_iff_eq.mp hbeq
    rw [List.map_append, List.nodup_append] at hnodup
    exact hnodup.2.2 (List.mem_map.mpr ⟨f, hf, rfl⟩) (List.mem_singleton.mpr hfe)
  have hallops : dictInsert
      (init.map (fun e => (e.1, mkOperation "test_op" [] e.2))) last.1
      (mkOperation "test_op" [] last.2) =
      (init ++ [last]).map (fun e => (e.1, mkOperation "test_op" [] e.2)) := by
    unfold dictInsert
    rw [hfresh51]
    simp only [Bool.false_eq_true, if_false]
    rw [List.map_append]
    rfl
  unfold create_operation
  dsimp only
  rw [hallops]
  have hkeep : ∀ kv ∈ (init ++ [last]).map
      (fun e => (e.1, mkOperation "test_op" [] e.2)),
      last.2 - kv.2.createdAt ≤ 7200 := by
    intro kv hkv
    rcases List.mem_map.mp hkv with ⟨f, hf, rfl⟩
    exact httl last (List.mem_append_right _ (List.mem_singleton_self _)) f hf
  have hsorted : List.Pairwise
      (fun a b : String × Operation => decide (a.2.createdAt ≤ b.2.createdAt) = true)
      ((init ++ [last]).map (fun e => (e.1, mkOperation "test_op" [] e.2))) := by
    rw [List.pairwise_map]
    refine hmono.imp ?_
    intro a b hab
    simp only [decide_eq_true_eq]
    show a.2 ≤ b.2
    omega
  rcases init with _ | ⟨i0, irest⟩
  · simp at hinitlen
  have hirestlen : irest.length = 49 := by
    simp only [List.length_cons] at hinitlen
    omega
  simp only [List.cons_append, List.map_cons] at hkeep hsorted ⊢
  have hfreshhead : (i0.1, mkOperation "test_op" [] i0.2).1 ∉
      ((irest ++ [last]).map (fun e => (e.1, mkOperation "test_op" [] e.2))).map
        Prod.fst := by
    have hmm : ((irest ++ [last]).map
        (fun e => (e.1, mkOperation "test_op" [] e.2))).map Prod.fst =
        (irest ++ [last]).map Prod.fst := by
      rw [List.map_map]
      rfl
    rw [hmm]
    simp only [List.cons_append, List.map_cons, List.nodup_cons] at hnodup
    exact hnodup.1
  rw [cleanup_evicts_head (i0.1, mkOperation "test_op" [] i0.2)
    ((irest ++ [last]).map (fun e => (e.1, mkOperation "test_op" [] e.2))) last.2
    hkeep
    (by simp [hirestlen])
    hsorted
    hfreshhead]
  constructor
  · simp [hirestlen]
  · show ((irest ++ [last]).map (fun e => (e.1, mkOperation "test_op" [] e.2))).map
      Prod.fst = _
    rw [List.map_map]
    simp only [List.cons_append, List.map_cons, List.drop_one, List.tail_cons]
    rfl

/-- C6 witness: fifty-one concrete calls, ids `op0..op50` at times `0..50`. -/
theorem tracker_cap_evicts_oldest_witness :
    (wEntries.length = 51 ∧ (wEntries.map Prod.fst).Nodup ∧
     wEntries.Pairwise (fun a b => a.2 < b.2) ∧
     ∀ a ∈ wEntries, ∀ b ∈ wEntries, a.2 - b.2 ≤ 7200) ∧
    ((createMany emptyManager "test_op" [] wEntries).operations.length = 50 ∧
     (createMany emptyManager "test_op" [] wEntries).operations.map Prod.fst =
       (wEntries.map Prod.fst).drop 1) := by
  refine ⟨⟨by decide, by decide, by decide, by decide⟩, ?_⟩
  exact tracker_cap_evicts_oldest wEntries (by decide) (by decide) (by decide)
    (by decide)

/-! ## Tracker and pipeline infrastructure for the failure-safety claims -/

theorem isOkE_iff {α : Type} {r : Except String α} :
    isOkE r = true ↔ ∃ v, r = .ok v := by
  cases r with
  | ok v => simp [isOkE]
  | error e => simp [isOkE]

theorem isErrE_iff {α : Type} {r : Except String α} :
    isErrE r = true ↔ ∃ e, r = .error e := by
  cases r with
  | ok v => simp [isErrE]
  | error e => simp [isErrE]

theorem find?_map_keyed {α : Type} (l : List (String × α)) (id : String)
    (g : String × α → α) :
    ((l.map (fun kv => if kv.1 == id then (kv.1, g kv) else kv)).find?
      (fun kv => kv.1 == id)) =
    (l.find? (fun kv => kv.1 == id)).map (fun kv => (kv.1, g kv)) := by
  induction l with
  | nil => rfl
  | cons kv rest ih =>
      by_cases h : (kv.1 == id) = true
      · simp [List.find?, h]
      · simp only [List.map_cons, if_neg h]
        rw [List.find?_cons_of_neg _ (by simp [h]), List.find?_cons_of_neg _ (by simp [h])]
        exact ih

/-- `update_operation` transforms the addressed record by `applyUpdate` and
touches nothing else. -/
theorem get_operation_update (m : BatchOperationManager) (opId : String)
    (now : Nat) (progressArg : Option Nat) (statusArg : Option String)
    (errorArg : Option String) :
    get_operation (update_operation m opId now progressArg statusArg errorArg) opId =
      (get_operation m opId).map (fun op => applyUpdate op now progressArg statusArg errorArg) := by
  unfold get_operation update_operation
  dsimp only
  rw [find?_map_keyed]
  cases hfind : m.operations.find? (fun kv => kv.1 == opId) with
  | none => rfl
  | some kv => rfl

/-- An error-free `update_operation` leaves `errors` untouched. -/
theorem applyUpdate_errors_none (op : Operation) (now : Nat)
    (progressArg : Option Nat) (statusArg : Option String) :
    (applyUpdate op now progressArg statusArg none).errors = op.errors := by
  unfold applyUpdate
  cases progressArg <;> cases statusArg <;> rfl

theorem get_after_update_none (m : BatchOperationManager) (opId : String)
    (now : Nat) (progressArg : Option Nat) (statusArg : Option String)
    (op : Operation) (h : get_operation m opId = some op) :
    ∃ op', get_operation (update_operation m opId now progressArg statusArg none)
        opId = some op' ∧ op'.errors = op.errors := by
  refine ⟨applyUpdate op now progressArg statusArg none, ?_,
    applyUpdate_errors_none op now progressArg statusArg⟩
  rw [get_operation_update, h]
  rfl

/-- The `except` branch of the handlers: mark failed and append the error. -/
theorem get_after_update_failed (m : BatchOperationManager) (opId : String)
    (now : Nat) (e : String) (op : Operation)
    (h : get_operation m opId = some op) :
    get_operation (update_operation m opId now none (some "failed") (some e)) opId =
      some { op with
              status := "failed", errors := op.errors ++ [e],
              failed := op.failed + 1, updatedAt := now } := by
  rw [get_operation_update, h]
  rfl

theorem find?_append_fresh {α : Type} (l : List (String × α)) (opId : String)
    (v : α) (h : l.any (fun kv => kv.1 == opId) = false) :
    (l ++ [(opId, v)]).find? (fun kv => kv.1 == opId) = some (opId, v) := by
  induction l with
  | nil => rw [List.nil_append, List.find?_cons_of_pos _ (by simp)]
  | cons kv rest ih =>
      simp only [List.any_cons, Bool.or_eq_false_iff] at h
      rw [List.cons_append, List.find?_cons_of_neg _ (by simp [h.1])]
      exact ih h.2

/-- Looking up a freshly appended record. -/
theorem get_operation_append_fresh (m : BatchOperationManager) (opId : String)
    (op : Operation)
    (h : m.operations.any (fun kv => kv.1 == opId) = false) :
    get_operation { m with operations := m.operations ++ [(opId, op)] } opId =
      some op := by
  unfold get_operation
  dsimp only
  rw [find?_append_fresh m.operations opId op h]
  rfl

/-- After `create_operation` in a tracker with room, the fresh record is
tracked with empty `errors`. -/
theorem get_after_create (m : BatchOperationManager) (opId : String) (now : Nat)
    (ty : String) (dt : List (String × String)) (hroom : trackerRoom m opId now) :
    get_operation (create_operation m opId now ty dt) opId =
      some (mkOperation ty dt now) := by
  rcases hroom with ⟨hmax, htime, hlen, hfresh, httl⟩
  rw [create_operation_fresh m opId now ty dt hfresh (by omega)
    (by intro kv hkv; rw [htime]; exact httl kv hkv)]
  exact get_operation_append_fresh m opId (mkOperation ty dt now) hfresh

/-! ### Upload blob-loop lemmas -/

theorem uploadBlobLoop_branchHead (gw : Gateway) (opId : String) (now : Nat) :
    ∀ (files : List UploadFile) (i : Nat) (st : GWState)
      (m : BatchOperationManager) (acc : List TreeItem),
      (uploadBlobLoop gw opId now files i st m acc).1.branchHead = st.branchHead := by
  intro files
  induction files with
  | nil => intro i st m acc; rfl
  | cons f rest ih =>
      intro i st m acc
      rw [uploadBlobLoop]
      cases gw.blobResult i with
      | error e => rfl
      | ok bsha => exact ih (i + 1) _ _ _

theorem uploadBlobLoop_errors (gw : Gateway) (opId : String) (now : Nat) :
    ∀ (files : List UploadFile) (i : Nat) (st : GWState)
      (m : BatchOperationManager) (acc : List TreeItem) (op : Operation),
      get_operation m opId = some op →
      ∃ op', get_operation (uploadBlobLoop gw opId now files i st m acc).2.1 opId =
          some op' ∧ op'.errors = op.errors := by
  intro files
  induction files with
  | nil => intro i st m acc op h; exact ⟨op, h, rfl⟩
  | cons f rest ih =>
      intro i st m acc op h
      rw [uploadBlobLoop]
      obtain ⟨op1, hop1, herr1⟩ :=
        get_after_update_none m opId now (some i) (some "uploading") op h
      cases gw.blobResult i with
      | error e => exact ⟨op1, hop1, herr1⟩
      | ok bsha =>
          obtain ⟨op', hop', herr'⟩ := ih (i + 1) _ _ _ op1 hop1
          exact ⟨op', hop', herr'.trans herr1⟩

theorem uploadBlobLoop_err_of_exists (gw : Gateway) (opId : String) (now : Nat) :
    ∀ (files : List UploadFile) (i : Nat) (st : GWState)
      (m : BatchOperationManager) (acc : List TreeItem),
      (∃ j, i ≤ j ∧ j < i + files.length ∧ isErrE (gw.blobResult j) = true) →
      isErrE (uploadBlobLoop gw opId now files i st m acc).2.2 = true := by
  intro files
  induction files with
  | nil =>
      intro i st m acc ⟨j, h1, h2, _⟩
      simp only [List.length_nil, Nat.add_zero] at h2
      omega
  | cons f rest ih =>
      intro i st m acc ⟨j, h1, h2, hj⟩
      rw [uploadBlobLoop]
      cases hb : gw.blobResult i with
      | error e => rfl
      | ok bsha =>
          refine ih (i + 1) _ _ _ ⟨j, ?_, ?_, hj⟩
          · rcases Nat.lt_or_ge i j with h | h
            · omega
            · exfalso
              have : j = i := by omega
              rw [this, hb] at hj
              simp [isErrE] at hj
          · simp only [List.length_cons] at h2
            omega

theorem uploadBlobLoop_ok_of_all (gw : Gateway) (opId : String) (now : Nat) :
    ∀ (files : List UploadFile) (i : Nat) (st : GWState)
      (m : BatchOperationManager) (acc : List TreeItem),
      (∀ j, i ≤ j → j < i + files.length → isOkE (gw.blobResult j) = true) →
      ∃ items, (uploadBlobLoop gw opId now files i st m acc).2.2 = .ok items := by
  intro files
  induction files with
  | nil => intro i st m acc _; exact ⟨acc, rfl⟩
  | cons f rest ih =>
      intro i st m acc hall
      rw [uploadBlobLoop]
      have hi : isOkE (gw.blobResult i) = true := by
        refine hall i (Nat.le_refl i) ?_
        simp only [List.length_cons]
        omega
      rcases isOkE_iff.mp hi with ⟨bsha, hb⟩
      rw [hb]
      refine ih (i + 1) _ _ _ ?_
      intro j h1 h2
      refine hall j (by omega) ?_
      simp only [List.length_cons]
      omega

theorem uploadBlobLoop_trace (gw : Gateway) (opId : String) (now : Nat) :
    ∀ (files : List UploadFile) (i : Nat) (st : GWState)
      (m : BatchOperationManager) (acc : List TreeItem),
      ∃ tr, (uploadBlobLoop gw opId now files i st m acc).1.trace = st.trace ++ tr ∧
        ∀ c ∈ tr, ∃ content, c = GWCall.createBlob content := by
  intro files
  induction files with
  | nil =>
      intro i st m acc
      exact ⟨[], by rw [List.append_nil]; rfl, by intro c hc; cases hc⟩
  | cons f rest ih =>
      intro i st m acc
      rw [uploadBlobLoop]
      cases gw.blobResult i with
      | error e =>
          refine ⟨[GWCall.createBlob f.content], rfl, ?_⟩
          intro c hc
          rcases List.mem_singleton.mp hc with rfl
          exact ⟨f.content, rfl⟩
      | ok bsha =>
          obtain ⟨tr, htr, hall⟩ := ih (i + 1)
            (issue st (GWCall.createBlob f.content))
            (update_operation m opId now (some i) (some "uploading") none)
            (acc ++ [⟨f.repoPath, "100644", bsha⟩])
          refine ⟨GWCall.createBlob f.content :: tr, ?_, ?_⟩
          · rw [htr]
            show st.trace ++ [GWCall.createBlob f.content] ++ tr = _
            rw [List.append_assoc]
            rfl
          · intro c hc
            rcases List.mem_cons.mp hc with rfl | hc
            · exact ⟨f.content, rfl⟩
            · exact hall c hc

/-- A pre-ref failure makes the upload pipeline return an error, with the
branch head untouched and the tracked operation's error list untouched (the
handler appends the error afterwards). -/
theorem uploadPipeline_preRef_fail (gw : Gateway) (st : GWState)
    (m : BatchOperationManager) (opId : String) (now : Nat) (branch : String)
    (files : List UploadFile) (msg : String) (author : Bool)
    (hfail : uploadPreRefFailure gw files.length author) :
    ∃ e st' m',
      uploadPipeline gw st m opId now branch files msg author = (st', m', .error e) ∧
      st'.branchHead = st.branchHead ∧
      ∀ op, get_operation m opId = some op →
        ∃ op', get_operation m' opId = some op' ∧ op'.errors = op.errors := by
  unfold uploadPipeline
  cases hre : gw.refError with
  | some e =>
      exact ⟨e, _, _, rfl, rfl, fun op hop => ⟨op, hop, rfl⟩⟩
  | none =>
    cases hco : gw.commitObjResult with
    | error e => exact ⟨e, _, _, rfl, rfl, fun op hop => ⟨op, hop, rfl⟩⟩
    | ok baseTree =>
      dsimp only
      rcases hl : uploadBlobLoop gw opId now files 0
        (issue (issue st (GWCall.getRef branch))
          (GWCall.getCommitObj (issue st (GWCall.getRef branch)).branchHead)) m []
        with ⟨st3, m3, r3⟩
      have hbh3 : st3.branchHead = st.branchHead := by
        have := uploadBlobLoop_branchHead gw opId now files 0
          (issue (issue st (GWCall.getRef branch))
            (GWCall.getCommitObj (issue st (GWCall.getRef branch)).branchHead)) m []
        rw [hl] at this
        exact this
      have herr3 : ∀ op, get_operation m opId = some op →
          ∃ op', get_operation m3 opId = some op' ∧ op'.errors = op.errors := by
        intro op hop
        have := uploadBlobLoop_errors gw opId now files 0
          (issue (issue st (GWCall.getRef branch))
            (GWCall.getCommitObj (issue st (GWCall.getRef branch)).branchHead)) m [] op hop
        rw [hl] at this
        exact this
      cases r3 with
      | error e => exact ⟨e, st3, m3, rfl, hbh3, herr3⟩
      | ok treeItems =>
        dsimp only
        have herr4 : ∀ op, get_operation m opId = some op →
            ∃ op', get_operation (update_operation m3 opId now (some files.length)
              (some "creating_tree") none) opId = some op' ∧ op'.errors = op.errors := by
          intro op hop
          obtain ⟨op3, hop3, he3⟩ := herr3 op hop
          obtain ⟨op4, hop4, he4⟩ := get_after_update_none m3 opId now
            (some files.length) (some "creating_tree") op3 hop3
          exact ⟨op4, hop4, he4.trans he3⟩
        cases htr : gw.treeResult with
        | error e => exact ⟨e, _, _, rfl, hbh3, herr4⟩
        | ok newTreeSha =>
          cases author with
          | true =>
              exact ⟨"NameError: name commit is not defined", _, _, rfl, hbh3, herr4⟩
          | false =>
            dsimp only
            cases hcr : gw.commitResult with
            | error e => exact ⟨e, _, _, rfl, hbh3, herr4⟩
            | ok newCommitSha =>
              cases hrp : gw.refPatchError with
              | some e => exact ⟨e, _, _, rfl, hbh3, herr4⟩
              | none =>
                exfalso
                rcases hfail with h | h | ⟨j, hj, hjerr⟩ | h | h | h
                · rw [hre] at h
                  simp [Option.isSome] at h
                · rw [hco] at h
                  simp [isErrE] at h
                · have := uploadBlobLoop_err_of_exists gw opId now files 0
                    (issue (issue st (GWCall.getRef branch))
                      (GWCall.getCommitObj (issue st (GWCall.getRef branch)).branchHead))
                    m [] ⟨j, Nat.zero_le j, by omega, hjerr⟩
                  rw [hl] at this
                  simp [isErrE] at this
                · rw [htr] at h
                  simp [isErrE] at h
                · exact Bool.false_ne_true h
                · rw [hcr] at h
                  simp [isErrE] at h

/-! ### Sync blob-loop lemmas -/

theorem syncBlobLoop_branchHead (gw : Gateway) :
    ∀ (files : List (String × LocalFile)) (i : Nat) (st : GWState)
      (acc : List TreeItem),
      (syncBlobLoop gw files i st acc).1.branchHead = st.branchHead := by
  intro files
  induction files with
  | nil => intro i st acc; rfl
  | cons f rest ih =>
      intro i st acc
      rw [syncBlobLoop]
      cases gw.blobResult i with
      | error e => rfl
      | ok bsha => exact ih (i + 1) _ _

theorem syncBlobLoop_err_of_exists (gw : Gateway) :
    ∀ (files : List (String × LocalFile)) (i : Nat) (st : GWState)
      (acc : List TreeItem),
      (∃ j, i ≤ j ∧ j < i + files.length ∧ isErrE (gw.blobResult j) = true) →
      isErrE (syncBlobLoop gw files i st acc).2.2 = true := by
  intro files
  induction files with
  | nil =>
      intro i st acc ⟨j, h1, h2, _⟩
      simp only [List.length_nil, Nat.add_zero] at h2
      omega
  | cons f rest ih =>
      intro i st acc ⟨j, h1, h2, hj⟩
      rw [syncBlobLoop]
      cases hb : gw.blobResult i with
      | error e => rfl
      | ok bsha =>
          refine ih (i + 1) _ _ ⟨j, ?_, ?_, hj⟩
          · rcases Nat.lt_or_ge i j with h | h
            · omega
            · exfalso
              have : j = i := by omega
              rw [this, hb] at hj
              simp [isErrE] at hj
          · simp only [List.length_cons] at h2
            omega

theorem syncBlobLoop_ok_next (gw : Gateway) :
    ∀ (files : List (String × LocalFile)) (i : Nat) (st : GWState)
      (acc : List TreeItem),
      isOkE (syncBlobLoop gw files i st acc).2.2 = true →
      (syncBlobLoop gw files i st acc).2.1 = i + files.length := by
  intro files
  induction files with
  | nil =>
      intro i st acc _
      show i = i + ([] : List (String × LocalFile)).length
      rw [List.length_nil, Nat.add_zero]
  | cons f rest ih =>
      intro i st acc hok
      rw [syncBlobLoop] at hok ⊢
      cases hb : gw.blobResult i with
      | error e =>
          rw [hb] at hok
          simp [isOkE] at hok
      | ok bsha =>
          rw [hb] at hok
          rw [ih (i + 1) _ _ hok]
          simp only [List.length_cons]
          omega

/-- The updated and added classes together cover the whole local manifest:
that many blob calls are issued. -/
theorem filter_length_partition {α : Type} (l : List α) (p : α → Bool) :
    (l.filter p).length + (l.filter (fun a => !p a)).length = l.length := by
  induction l with
  | nil => rfl
  | cons a rest ih => cases h : p a <;> simp [List.filter_cons, h] <;> omega

/-- A pre-ref failure makes the sync pipeline return an error, with the
branch head untouched and the tracked operation's error list untouched. -/
theorem syncPipeline_preRef_fail (gw : Gateway) (st : GWState)
    (m : BatchOperationManager) (opId : String) (now : Nat) (branch : String)
    (localFiles : List (String × LocalFile)) (del : Bool)
    (hfail : syncPreRefFailure gw localFiles.length) :
    ∃ e st' m',
      syncPipeline gw st m opId now branch localFiles del = (st', m', .error e) ∧
      st'.branchHead = st.branchHead ∧
      ∀ op, get_operation m opId = some op →
        ∃ op', get_operation m' opId = some op' ∧ op'.errors = op.errors := by
  unfold syncPipeline
  cases hre : gw.refError with
  | some e => exact ⟨e, _, _, rfl, rfl, fun op hop => ⟨op, hop, rfl⟩⟩
  | none =>
    cases hco : gw.commitObjResult with
    | error e => exact ⟨e, _, _, rfl, rfl, fun op hop => ⟨op, hop, rfl⟩⟩
    | ok baseTree =>
      cases htf : gw.treeFetch with
      | error e => exact ⟨e, _, _, rfl, rfl, fun op hop => ⟨op, hop, rfl⟩⟩
      | ok tree =>
        dsimp only
        set st3 := issue (issue (issue st (GWCall.getRef branch))
          (GWCall.getCommitObj (issue st (GWCall.getRef branch)).branchHead))
          (GWCall.getTree (issue st (GWCall.getRef branch)).branchHead) with hst3
        set remotePaths := remoteBlobPaths tree [] with hrp
        set d := computeSyncDiff localFiles remotePaths del with hd
        have hcover : d.toUpdate.length + d.toAdd.length = localFiles.length := by
          rw [hd]
          exact filter_length_partition localFiles
            (fun kv => remotePaths.any (fun p => p == kv.1))
        rcases hl1 : syncBlobLoop gw d.toAdd 0 st3 [] with ⟨st4, i4, r4⟩
        have hbh4 : st4.branchHead = st.branchHead := by
          have := syncBlobLoop_branchHead gw d.toAdd 0 st3 []
          rw [hl1] at this
          exact this
        cases r4 with
        | error e => exact ⟨e, _, _, rfl, hbh4, fun op hop => ⟨op, hop, rfl⟩⟩
        | ok addItems =>
          dsimp only
          have hi4 : i4 = d.toAdd.length := by
            have := syncBlobLoop_ok_next gw d.toAdd 0 st3 []
            rw [hl1] at this
            simpa using this (by rfl)
          rcases hl2 : syncBlobLoop gw d.toUpdate i4 st4 addItems with ⟨st5, i5, r5⟩
          have hbh5 : st5.branchHead = st.branchHead := by
            have := syncBlobLoop_branchHead gw d.toUpdate i4 st4 addItems
            rw [hl2] at this
            rw [this]
            exact hbh4
          cases r5 with
          | error e => exact ⟨e, _, _, rfl, hbh5, fun op hop => ⟨op, hop, rfl⟩⟩
          | ok updItems =>
            dsimp only
            cases htr : gw.treeResult with
            | error e =>
                exact ⟨e, _, _, rfl, hbh5, fun op hop =>
                  get_after_update_none m opId now (some 50) (some "creating_tree") op hop⟩
            | ok newTreeSha =>
              cases hcr : gw.commitResult with
              | error e =>
                  exact ⟨e, _, _, rfl, hbh5, fun op hop =>
                    get_after_update_none m opId now (some 50) (some "creating_tree") op hop⟩
              | ok newCommitSha =>
                cases hrp2 : gw.refPatchError with
                | some e =>
                    exact ⟨e, _, _, rfl, hbh5, fun op hop =>
                      get_after_update_none m opId now (some 50) (some "creating_tree") op hop⟩
                | none =>
                  exfalso
                  rcases hfail with h | h | h | ⟨j, hj, hjerr⟩ | h | h
                  · rw [hre] at h
                    simp [Option.isSome] at h
                  · rw [hco] at h
                    simp [isErrE] at h
                  · rw [htf] at h
                    simp [isErrE] at h
                  · rcases Nat.lt_or_ge j d.toAdd.length with hcase | hcase
                    · have := syncBlobLoop_err_of_exists gw d.toAdd 0 st3 []
                        ⟨j, Nat.zero_le j, by omega, hjerr⟩
                      rw [hl1] at this
                      simp [isErrE] at this
                    · have := syncBlobLoop_err_of_exists gw d.toUpdate i4 st4 addItems
                        ⟨j, by omega, by omega, hjerr⟩
                      rw [hl2] at this
                      simp [isErrE] at this
                  · rw [htr] at h
                    simp [isErrE] at h
                  · rw [hcr] at h
                    simp [isErrE] at h

/-! ### Handler-level failure safety -/

theorem upload_dir_fail_safe (gw : Gateway) (fs : String → Option FSEntry)
    (a : UploadArgs) (opId : String) (now : Nat) (st : GWState)
    (m : BatchOperationManager) (root : FSEntry)
    (hfs : fs a.localPath = some root) (hdry : a.dryRun = false)
    (hroom : trackerRoom m opId now)
    (hfail : uploadPreRefFailure gw
      (uploadWalk a.excludePatterns a.includeHidden a.localPath a.repoPath root).length
      a.authorProvided) :
    ∃ e st' m',
      upload_directory_to_github gw fs a opId now st m =
        (st', m', .errorText ("Error uploading directory: " ++ e)) ∧
      st'.branchHead = st.branchHead ∧
      ∃ op', get_operation m' opId = some op' ∧ op'.status = "failed" ∧
        op'.errors = [e] := by
  unfold upload_directory_to_github
  rw [hfs]
  dsimp only
  rw [hdry]
  simp only [Bool.false_eq_true, if_false]
  obtain ⟨e, st', m2, hpipe, hbh, herr⟩ := uploadPipeline_preRef_fail gw st
    (create_operation m opId now "upload_directory"
      [("local_path", a.localPath), ("owner", a.owner), ("repo", a.repo),
       ("repo_path", a.repoPath), ("branch", a.branch)])
    opId now a.branch
    (uploadWalk a.excludePatterns a.includeHidden a.localPath a.repoPath root)
    a.commitMessage a.authorProvided hfail
  rw [hpipe]
  refine ⟨e, st', _, rfl, hbh, ?_⟩
  obtain ⟨op2, hop2, herrs⟩ := herr (mkOperation "upload_directory"
      [("local_path", a.localPath), ("owner", a.owner), ("repo", a.repo),
       ("repo_path", a.repoPath), ("branch", a.branch)] now)
    (get_after_create m opId now "upload_directory"
      [("local_path", a.localPath), ("owner", a.owner), ("repo", a.repo),
       ("repo_path", a.repoPath), ("branch", a.branch)] hroom)
  rw [get_after_update_failed m2 opId now e op2 hop2]
  refine ⟨_, rfl, rfl, ?_⟩
  rw [herrs]
  rfl

theorem upload_multi_fail_safe (gw : Gateway) (fs : String → Option FSEntry)
    (mappings : List DirMapping) (owner repo branch commitMessage : String)
    (pats : List String) (includeHidden : Bool) (opId : String) (now : Nat)
    (st : GWState) (m : BatchOperationManager) (allFiles : List UploadFile)
    (hcol : collectMultiFiles fs pats includeHidden mappings = .ok allFiles)
    (hroom : trackerRoom m opId now)
    (hfail : uploadPreRefFailure gw allFiles.length false) :
    ∃ e st' m',
      upload_multiple_directories_to_github gw fs mappings owner repo branch
          commitMessage pats includeHidden false opId now st m =
        (st', m', .errorText ("Error uploading directories: " ++ e)) ∧
      st'.branchHead = st.branchHead ∧
      ∃ op', get_operation m' opId = some op' ∧ op'.status = "failed" ∧
        op'.errors = [e] := by
  unfold upload_multiple_directories_to_github
  rw [hcol]
  dsimp only
  simp only [Bool.false_eq_true, if_false]
  obtain ⟨e, st', m2, hpipe, hbh, herr⟩ := uploadPipeline_preRef_fail gw st
    (create_operation m opId now "upload_multiple"
      [("owner", owner), ("repo", repo), ("branch", branch)])
    opId now branch allFiles commitMessage false hfail
  rw [hpipe]
  refine ⟨e, st', _, rfl, hbh, ?_⟩
  obtain ⟨op2, hop2, herrs⟩ := herr (mkOperation "upload_multiple"
      [("owner", owner), ("repo", repo), ("branch", branch)] now)
    (get_after_create m opId now "upload_multiple"
      [("owner", owner), ("repo", repo), ("branch", branch)] hroom)
  rw [get_after_update_failed m2 opId now e op2 hop2]
  refine ⟨_, rfl, rfl, ?_⟩
  rw [herrs]
  rfl

theorem sync_dir_fail_safe (gw : Gateway) (fs : String → Option FSEntry)
    (hash : String → String) (a : SyncArgs) (opId : String) (now : Nat)
    (st : GWState) (m : BatchOperationManager) (root : FSEntry)
    (hfs : fs a.localPath = some root) (hdry : a.dryRun = false)
    (hroom : trackerRoom m opId now)
    (hfail : syncPreRefFailure gw
      (syncWalk hash a.excludePatterns a.includeHidden a.repoPath root).length) :
    ∃ e st' m',
      sync_local_directory_with_github gw fs hash a opId now st m =
        (st', m', .errorText ("Error synchronizing directory: " ++ e)) ∧
      st'.branchHead = st.branchHead ∧
      ∃ op', get_operation m' opId = some op' ∧ op'.status = "failed" ∧
        op'.errors = [e] := by
  unfold sync_local_directory_with_github
  rw [hfs]
  dsimp only
  rw [hdry]
  simp only [Bool.false_eq_true, if_false]
  obtain ⟨e, st', m2, hpipe, hbh, herr⟩ := syncPipeline_preRef_fail gw st
    (create_operation m opId now "sync_directory"
      [("local_path", a.localPath), ("owner", a.owner), ("repo", a.repo),
       ("repo_path", a.repoPath), ("branch", a.branch)])
    opId now a.branch
    (syncWalk hash a.excludePatterns a.includeHidden a.repoPath root)
    a.deleteRemoteFiles hfail
  rw [hpipe]
  refine ⟨e, st', _, rfl, hbh, ?_⟩
  obtain ⟨op2, hop2, herrs⟩ := herr (mkOperation "sync_directory"
      [("local_path", a.localPath), ("owner", a.owner), ("repo", a.repo),
       ("repo_path", a.repoPath), ("branch", a.branch)] now)
    (get_after_create m opId now "sync_directory"
      [("local_path", a.localPath), ("owner", a.owner), ("repo", a.repo),
       ("repo_path", a.repoPath), ("branch", a.branch)] hroom)
  rw [get_after_update_failed m2 opId now e op2 hop2]
  refine ⟨_, rfl, rfl, ?_⟩
  rw [herrs]
  rfl

/-! ## C1 -/

/-- C1: for each upload/sync tool, when any pipeline step before the
branch-ref update (the head/tree reads, a blob creation, the tree creation,
the commit creation) fails, the handler returns an error result, the remote
branch still points at the pre-operation commit, and the invocation's
operation is marked `failed` with the error appended to its error list
(given a tracker with room for the fresh operation). -/
theorem pre_ref_failure_leaves_branch_unchanged :
    (∀ (gw : Gateway) (fs : String → Option FSEntry) (a : UploadArgs)
       (opId : String) (now : Nat) (st : GWState) (m : BatchOperationManager)
       (root : FSEntry),
       fs a.localPath = some root → a.dryRun = false → trackerRoom m opId now →
       uploadPreRefFailure gw
         (uploadWalk a.excludePatterns a.includeHidden a.localPath a.repoPath
           root).length a.authorProvided →
       ∃ e st' m',
         upload_directory_to_github gw fs a opId now st m =
           (st', m', .errorText ("Error uploading directory: " ++ e)) ∧
         st'.branchHead = st.branchHead ∧
         ∃ op', get_operation m' opId = some op' ∧ op'.status = "failed" ∧
           op'.errors = [e]) ∧
    (∀ (gw : Gateway) (fs : String → Option FSEntry) (mappings : List DirMapping)
       (owner repo branch commitMessage : String) (pats : List String)
       (includeHidden : Bool) (opId : String) (now : Nat) (st : GWState)
       (m : BatchOperationManager) (allFiles : List UploadFile),
       collectMultiFiles fs pats includeHidden mappings = .ok allFiles →
       trackerRoom m opId now →
       uploadPreRefFailure gw allFiles.length false →
       ∃ e st' m',
         upload_multiple_directories_to_github gw fs mappings owner repo branch
             commitMessage pats includeHidden false opId now st m =
           (st', m', .errorText ("Error uploading directories: " ++ e)) ∧
         st'.branchHead = st.branchHead ∧
         ∃ op', get_operation m' opId = some op' ∧ op'.status = "failed" ∧
           op'.errors = [e]) ∧
    (∀ (gw : Gateway) (fs : String → Option FSEntry) (hash : String → String)
       (a : SyncArgs) (opId : String) (now : Nat) (st : GWState)
       (m : BatchOperationManager) (root : FSEntry),
       fs a.localPath = some root → a.dryRun = false → trackerRoom m opId now →
       syncPreRefFailure gw
         (syncWalk hash a.excludePatterns a.includeHidden a.repoPath root).length →
       ∃ e st' m',
         sync_local_directory_with_github gw fs hash a opId now st m =
           (st', m', .errorText ("Error synchronizing directory: " ++ e)) ∧
         st'.branchHead = st.branchHead ∧
         ∃ op', get_operation m' opId = some op' ∧ op'.status = "failed" ∧
           op'.errors = [e]) := by
  refine ⟨?_, ?_, ?_⟩
  · intro gw fs a opId now st m root hfs hdry hroom hfail
    exact upload_dir_fail_safe gw fs a opId now st m root hfs hdry hroom hfail
  · intro gw fs mappings owner repo branch commitMessage pats includeHidden opId
      now st m allFiles hcol hroom hfail
    exact upload_multi_fail_safe gw fs mappings owner repo branch commitMessage
      pats includeHidden opId now st m allFiles hcol hroom hfail
  · intro gw fs hash a opId now st m root hfs hdry hroom hfail
    exact sync_dir_fail_safe gw fs hash a opId now st m root hfs hdry hroom hfail

/-- C1 witness: a Gateway whose tree-creation request fails, exercised
through all three handlers against a one-file directory and a fresh tracker. -/
theorem pre_ref_failure_leaves_branch_unchanged_witness :
    (wFs "d" = some wTree ∧ wUploadArgs.dryRun = false ∧
     trackerRoom emptyManager "op1" 0 ∧
     isErrE wGatewayTreeFail.treeResult = true ∧
     collectMultiFiles wFs [] false [⟨"d", "tgt"⟩] =
       .ok (uploadWalk [] false "d" "tgt" wTree) ∧
     wSyncArgs.dryRun = false) ∧
    (∃ e st' m',
      upload_directory_to_github wGatewayTreeFail wFs wUploadArgs "op1" 0 wSt
          emptyManager =
        (st', m', .errorText ("Error uploading directory: " ++ e)) ∧
      st'.branchHead = wSt.branchHead ∧
      ∃ op', get_operation m' "op1" = some op' ∧ op'.status = "failed" ∧
        op'.errors = [e]) ∧
    (∃ e st' m',
      upload_multiple_directories_to_github wGatewayTreeFail wFs [⟨"d", "tgt"⟩]
          "o" "r" "main" "msg" [] false false "op1" 0 wSt emptyManager =
        (st', m', .errorText ("Error uploading directories: " ++ e)) ∧
      st'.branchHead = wSt.branchHead ∧
      ∃ op', get_operation m' "op1" = some op' ∧ op'.status = "failed" ∧
        op'.errors = [e]) ∧
    (∃ e st' m',
      sync_local_directory_with_github wGatewayTreeFail wFs wHash wSyncArgs
          "op1" 0 wSt emptyManager =
        (st', m', .errorText ("Error synchronizing directory: " ++ e)) ∧
      st'.branchHead = wSt.branchHead ∧
      ∃ op', get_operation m' "op1" = some op' ∧ op'.status = "failed" ∧
        op'.errors = [e]) := by
  have hcol : collectMultiFiles wFs [] false [⟨"d", "tgt"⟩] =
      .ok (uploadWalk [] false "d" "tgt" wTree) := by
    show Except.ok (uploadWalk [] false "d" "tgt" wTree ++ []) = _
    rw [List.append_nil]
  have htreefail : isErrE wGatewayTreeFail.treeResult = true := rfl
  have hroom : trackerRoom emptyManager "op1" 0 :=
    ⟨rfl, rfl, by decide, rfl, by intro kv hkv; cases hkv⟩
  refine ⟨⟨rfl, rfl, hroom, htreefail, hcol, rfl⟩, ?_, ?_, ?_⟩
  · exact pre_ref_failure_leaves_branch_unchanged.1 wGatewayTreeFail wFs
      wUploadArgs "op1" 0 wSt emptyManager wTree rfl rfl hroom
      (Or.inr (Or.inr (Or.inr (Or.inl htreefail))))
  · exact pre_ref_failure_leaves_branch_unchanged.2.1 wGatewayTreeFail wFs
      [⟨"d", "tgt"⟩] "o" "r" "main" "msg" [] false "op1" 0 wSt emptyManager
      (uploadWalk [] false "d" "tgt" wTree) hcol hroom
      (Or.inr (Or.inr (Or.inr (Or.inl htreefail))))
  · exact pre_ref_failure_leaves_branch_unchanged.2.2 wGatewayTreeFail wFs wHash
      wSyncArgs "op1" 0 wSt emptyManager wTree rfl rfl hroom
      (Or.inr (Or.inr (Or.inr (Or.inr (Or.inl htreefail)))))

/-! ## C10 -/

/-- With both author fields supplied, the upload pipeline reaches the
commit-building step and fails there on the undefined name `commit`,
without ever issuing the commit-creation request. -/
theorem uploadPipeline_author_nameerror (gw : Gateway) (st : GWState)
    (m : BatchOperationManager) (opId : String) (now : Nat) (branch : String)
    (files : List UploadFile) (msg : String)
    (hre : gw.refError = none)
    (hco : isOkE gw.commitObjResult = true)
    (hblobs : ∀ j, j < files.length → isOkE (gw.blobResult j) = true)
    (htree : isOkE gw.treeResult = true) :
    ∃ st' m',
      uploadPipeline gw st m opId now branch files msg true =
        (st', m', .error "NameError: name commit is not defined") ∧
      st'.branchHead = st.branchHead ∧
      (∀ op, get_operation m opId = some op →
        ∃ op', get_operation m' opId = some op' ∧ op'.errors = op.errors) ∧
      (∀ c ∈ st'.trace, c ∈ st.trace ∨ c = GWCall.getRef branch ∨
        (∃ s, c = GWCall.getCommitObj s) ∨
        (∃ content, c = GWCall.createBlob content) ∨
        (∃ bt its, c = GWCall.createTree bt its)) := by
  unfold uploadPipeline
  rw [hre]
  rcases isOkE_iff.mp hco with ⟨baseTree, hco'⟩
  rw [hco']
  dsimp only
  rcases hl : uploadBlobLoop gw opId now files 0
    (issue (issue st (GWCall.getRef branch))
      (GWCall.getCommitObj (issue st (GWCall.getRef branch)).branchHead)) m []
    with ⟨st3, m3, r3⟩
  have hbh3 : st3.branchHead = st.branchHead := by
    have := uploadBlobLoop_branchHead gw opId now files 0
      (issue (issue st (GWCall.getRef branch))
        (GWCall.getCommitObj (issue st (GWCall.getRef branch)).branchHead)) m []
    rw [hl] at this
    exact this
  have htrace3 : ∃ tr, st3.trace =
      ((st.trace ++ [GWCall.getRef branch]) ++
        [GWCall.getCommitObj (issue st (GWCall.getRef branch)).branchHead]) ++ tr ∧
      ∀ c ∈ tr, ∃ content, c = GWCall.createBlob content := by
    have := uploadBlobLoop_trace gw opId now files 0
      (issue (issue st (GWCall.getRef branch))
        (GWCall.getCommitObj (issue st (GWCall.getRef branch)).branchHead)) m []
    rw [hl] at this
    obtain ⟨tr, htr, hall⟩ := this
    exact ⟨tr, htr, hall⟩
  have herr3 : ∀ op, get_operation m opId = some op →
      ∃ op', get_operation m3 opId = some op' ∧ op'.errors = op.errors := by
    intro op hop
    have := uploadBlobLoop_errors gw opId now files 0
      (issue (issue st (GWCall.getRef branch))
        (GWCall.getCommitObj (issue st (GWCall.getRef branch)).branchHead)) m [] op hop
    rw [hl] at this
    exact this
  have hok3 : ∃ items, r3 = .ok items := by
    have := uploadBlobLoop_ok_of_all gw opId now files 0
      (issue (issue st (GWCall.getRef branch))
        (GWCall.getCommitObj (issue st (GWCall.getRef branch)).branchHead)) m []
      (by intro j _ hj; exact hblobs j (by omega))
    rw [hl] at this
    exact this
  rcases hok3 with ⟨items, rfl⟩
  dsimp only
  rcases isOkE_iff.mp htree with ⟨newTreeSha, htree'⟩
  rw [htree']
  refine ⟨_, _, rfl, hbh3, ?_, ?_⟩
  · intro op hop
    obtain ⟨op3, hop3, he3⟩ := herr3 op hop
    obtain ⟨op4, hop4, he4⟩ := get_after_update_none m3 opId now
      (some files.length) (some "creating_tree") op3 hop3
    exact ⟨op4, hop4, he4.trans he3⟩
  · intro c hc
    have hc' : c ∈ st3.trace ++ [GWCall.createTree baseTree items] := hc
    rcases List.mem_append.mp hc' with hc2 | hc2
    · obtain ⟨tr, htr, hall⟩ := htrace3
      rw [htr] at hc2
      rcases List.mem_append.mp hc2 with hc3 | hc3
      · rcases List.mem_append.mp hc3 with hc4 | hc4
        · rcases List.mem_append.mp hc4 with hc5 | hc5
          · exact Or.inl hc5
          · rcases List.mem_singleton.mp hc5 with rfl
            exact Or.inr (Or.inl rfl)
        · rcases List.mem_singleton.mp hc4 with rfl
          exact Or.inr (Or.inr (Or.inl ⟨_, rfl⟩))
      · rcases hall c hc3 with ⟨content, rfl⟩
        exact Or.inr (Or.inr (Or.inr (Or.inl ⟨content, rfl⟩)))
    · rcases List.mem_singleton.mp hc2 with rfl
      exact Or.inr (Or.inr (Or.inr (Or.inr ⟨baseTree, items, rfl⟩)))

/-- C10: with `author_name` and `author_email` both supplied and the blob and
tree phases succeeding, `upload_directory_to_github` fails at the
commit-creation phase on the assignment to the undefined name `commit`
(a `NameError` inside the `try`): the operation is marked `failed` with that
error, the commit-creation request is never issued, the branch head is
unchanged, and the caller-supplied author reaches no commit. -/
theorem author_supplied_upload_fails_before_commit (gw : Gateway)
    (fs : String → Option FSEntry) (a : UploadArgs) (opId : String) (now : Nat)
    (st : GWState) (m : BatchOperationManager) (root : FSEntry)
    (hfs : fs a.localPath = some root) (hdry : a.dryRun = false)
    (hauthor : a.authorProvided = true) (hroom : trackerRoom m opId now)
    (hre : gw.refError = none) (hco : isOkE gw.commitObjResult = true)
    (hblobs : ∀ j, j < (uploadWalk a.excludePatterns a.includeHidden
      a.localPath a.repoPath root).length → isOkE (gw.blobResult j) = true)
    (htree : isOkE gw.treeResult = true) :
    ∃ st' m',
      upload_directory_to_github gw fs a opId now st m =
        (st', m', .errorText
          ("Error uploading directory: " ++ "NameError: name commit is not defined")) ∧
      st'.branchHead = st.branchHead ∧
      (∃ op', get_operation m' opId = some op' ∧ op'.status = "failed" ∧
        op'.errors = ["NameError: name commit is not defined"]) ∧
      (∀ msg tr ps, GWCall.createCommit msg tr ps ∈ st'.trace →
        GWCall.createCommit msg tr ps ∈ st.trace) := by
  unfold upload_directory_to_github
  rw [hfs]
  dsimp only
  rw [hdry, hauthor]
  simp only [Bool.false_eq_true, if_false]
  obtain ⟨st', m2, hpipe, hbh, herr, htrace⟩ := uploadPipeline_author_nameerror
    gw st
    (create_operation m opId now "upload_directory"
      [("local_path", a.localPath), ("owner", a.owner), ("repo", a.repo),
       ("repo_path", a.repoPath), ("branch", a.branch)])
    opId now a.branch
    (uploadWalk a.excludePatterns a.includeHidden a.localPath a.repoPath root)
    a.commitMessage hre hco hblobs htree
  rw [hpipe]
  refine ⟨st', _, rfl, hbh, ?_, ?_⟩
  · obtain ⟨op2, hop2, herrs⟩ := herr (mkOperation "upload_directory"
        [("local_path", a.localPath), ("owner", a.owner), ("repo", a.repo),
         ("repo_path", a.repoPath), ("branch", a.branch)] now)
      (get_after_create m opId now "upload_directory"
        [("local_path", a.localPath), ("owner", a.owner), ("repo", a.repo),
         ("repo_path", a.repoPath), ("branch", a.branch)] hroom)
    rw [get_after_update_failed m2 opId now
      "NameError: name commit is not defined" op2 hop2]
    refine ⟨_, rfl, rfl, ?_⟩
    rw [herrs]
    rfl
  · intro msg tr ps hmem
    rcases htrace (GWCall.createCommit msg tr ps) hmem with h | h | ⟨s, h⟩ |
      ⟨content, h⟩ | ⟨bt, its, h⟩
    · exact h
    · cases h
    · cases h
    · cases h
    · cases h

/-- C10 witness: author supplied, every Gateway request would succeed. -/
theorem author_supplied_upload_fails_before_commit_witness :
    (wFs "d" = some wTree ∧
     ({ wUploadArgs with authorProvided := true } : UploadArgs).dryRun = false ∧
     ({ wUploadArgs with authorProvided := true } : UploadArgs).authorProvided = true ∧
     trackerRoom emptyManager "op1" 0 ∧ wGatewayOk.refError = none ∧
     isOkE wGatewayOk.commitObjResult = true ∧ isOkE wGatewayOk.treeResult = true) ∧
    (∃ st' m',
      upload_directory_to_github wGatewayOk wFs
          { wUploadArgs with authorProvided := true } "op1" 0 wSt emptyManager =
        (st', m', .errorText
          ("Error uploading directory: " ++ "NameError: name commit is not defined")) ∧
      st'.branchHead = wSt.branchHead ∧
      (∃ op', get_operation m' "op1" = some op' ∧ op'.status = "failed" ∧
        op'.errors = ["NameError: name commit is not defined"]) ∧
      (∀ msg tr ps, GWCall.createCommit msg tr ps ∈ st'.trace →
        GWCall.createCommit msg tr ps ∈ wSt.trace)) := by
  have hroom : trackerRoom emptyManager "op1" 0 :=
    ⟨rfl, rfl, by decide, rfl, by intro kv hkv; cases hkv⟩
  refine ⟨⟨rfl, rfl, rfl, hroom, rfl, rfl, rfl⟩, ?_⟩
  exact author_supplied_upload_fails_before_commit wGatewayOk wFs
    { wUploadArgs with authorProvided := true } "op1" 0 wSt emptyManager wTree
    rfl rfl rfl hroom rfl rfl (fun j _ => rfl) rfl

end GhSync
